import Mathlib

/-!
A verification development for a small BASIC-family interpreter written in
C++ (lexer, recursive-descent parser, tree-walking execution engine with a
stack of activation frames, and a tagged int/double "number" abstraction).

The C++ sources are embedded shallowly:

* machine `int` is idealized as unbounded `Int` (no claim under scrutiny
  exercises overflow); `/` and `%` on C++ `int` truncate toward zero, hence
  `Int.tdiv` / `Int.tmod`;
* IEEE-754 `double` is idealized as an exact, unnormalized fraction
  (`Frac` below).  The claims under scrutiny never depend on rounding,
  infinities or NaN; where C++ would produce an infinity (floating division
  by an exact zero) the model produces a junk fraction with denominator 0,
  and such a value is never inspected by any theorem;
* C++ exceptions (`lexer_error`, `syntax_error`, `runtime_error`) become an
  `Except` error type; undefined behavior (reading `front()` of an empty
  `std::deque`, integer `%` by zero) is made explicit as a distinguished
  error constructor rather than given a made-up defined result;
* every loop (in the lexer, the parser and the execution engine) is driven
  by explicit fuel so that all definitions are structurally recursive and
  kernel-computable.
-/

/-- Errors of the interpreter.  The first three mirror the C++ exception
classes `lexer_error`, `syntax_error` and `runtime_error`; `ubError` marks a
spot where the C++ program has undefined behavior (it is not an exception in
the source, but the shallow embedding must name the outcome somehow). -/
inductive err where
  | lexError (msg : String)
  | synError (msg : String)
  | rtError (msg : String)
  | ubError (msg : String)
  deriving DecidableEq

/-- An exact unnormalized fraction standing in for a C++ `double`
(see the header comment: rounding, infinities and NaN are idealized away).
The denominator is kept positive by all constructors except for the junk
value produced when dividing by a fraction whose value is zero. -/
structure Frac where
  num : Int
  den : Nat
  deriving DecidableEq

namespace Frac

def ofInt (n : Int) : Frac := ⟨n, 1⟩

def add (a b : Frac) : Frac := ⟨a.num * b.den + b.num * a.den, a.den * b.den⟩

def sub (a b : Frac) : Frac := ⟨a.num * b.den - b.num * a.den, a.den * b.den⟩

def mul (a b : Frac) : Frac := ⟨a.num * b.num, a.den * b.den⟩

/-- Multiplicative inverse; keeps the denominator nonnegative.  Inverting a
zero fraction yields the junk value with denominator 0 (C++ would produce an
IEEE infinity). -/
def inv (b : Frac) : Frac :=
  if b.num ≥ 0 then ⟨(b.den : Int), b.num.toNat⟩ else ⟨-(b.den : Int), (-b.num).toNat⟩

def div (a b : Frac) : Frac := mul a (inv b)

def neg (a : Frac) : Frac := ⟨-a.num, a.den⟩

def abs (a : Frac) : Frac := ⟨|a.num|, a.den⟩

/-- Value comparison by cross multiplication (valid for positive denominators). -/
def lt (a b : Frac) : Bool := decide (a.num * b.den < b.num * a.den)

def ge (a b : Frac) : Bool := !(lt a b)

/-- Truncation toward zero, mirroring C++ `static_cast<int>(double)`. -/
def trunc (a : Frac) : Int := a.num.tdiv a.den

/-- The rational value of a fraction (specification-side view; not used by
the executable semantics). -/
def val (a : Frac) : ℚ := (a.num : ℚ) / (a.den : ℚ)

end Frac

/-- `std::numeric_limits<double>::epsilon()`, the fixed comparison epsilon of
`number.cc`. -/
def EPSILON : Frac := ⟨1, 2 ^ 52⟩

/-- The tagged numeric value of `number.hh` / `number.cc`: a cached integer,
a floating-point value, and an `integral` flag. -/
structure number where
  integral_value : Int
  floating_point_value : Frac
  integral : Bool
  deriving DecidableEq

namespace number

/-- `number::number(int)`. -/
def ofInt (value : Int) : number := ⟨value, Frac.ofInt value, true⟩

/-- `number::number(double)`: the cached integer is the truncation of the
double. -/
def ofDouble (value : Frac) : number := ⟨value.trunc, value, false⟩

/-- `number::is_true`: integral nonzero, or absolute floating value at least
epsilon. -/
def is_true (n : number) : Bool :=
  (n.integral && n.integral_value != 0) || (n.floating_point_value.abs.ge EPSILON)

/-- `number::check_and_promote`: the result of `+ - *` is integral iff both
operands are. -/
def promoted (a b : number) : Bool := a.integral && b.integral

/-- `number::operator+=`. -/
def add (a b : number) : number :=
  ⟨a.integral_value + b.integral_value,
   a.floating_point_value.add b.floating_point_value, promoted a b⟩

/-- `number::operator-=`. -/
def sub (a b : number) : number :=
  ⟨a.integral_value - b.integral_value,
   a.floating_point_value.sub b.floating_point_value, promoted a b⟩

/-- `number::operator*=`. -/
def mul (a b : number) : number :=
  ⟨a.integral_value * b.integral_value,
   a.floating_point_value.mul b.floating_point_value, promoted a b⟩

/-- `number::operator/=` (number.cc lines 79-96): throws "Division by zero"
when the divisor's cached integer is zero; otherwise the result is integral
iff both operands are integral and the integer remainder is zero, and both
the integer quotient (C++ truncating division) and the floating quotient are
taken. -/
def div (a b : number) : Except err number :=
  if b.integral_value ≠ 0 then
    Except.ok
      ⟨a.integral_value.tdiv b.integral_value,
       a.floating_point_value.div b.floating_point_value,
       a.integral && b.integral && (a.integral_value.tmod b.integral_value == 0)⟩
  else
    Except.error (err.rtError "Division by zero")

/-- `number::operator%=` (number.cc lines 98-106): throws unless both
operands are integral; the divisor's value is never inspected, so both
integral operands reach the C++ expression `integral_value %= rhs`, which
for a zero divisor is undefined behavior (made explicit here). -/
def mod (a b : number) : Except err number :=
  if a.integral && b.integral then
    if b.integral_value = 0 then
      Except.error (err.ubError "integer remainder by zero")
    else
      Except.ok
        ⟨a.integral_value.tmod b.integral_value,
         Frac.ofInt (a.integral_value.tmod b.integral_value), a.integral⟩
  else
    Except.error (err.rtError "Modulo operation is only defined on whole number types.")

/-- Unary `operator-` on numbers. -/
def neg (n : number) : number :=
  if n.integral then ofInt (-n.integral_value) else ofDouble n.floating_point_value.neg

/-- `operator==`: exact on two integrals, epsilon comparison otherwise. -/
def eq (a b : number) : Bool :=
  if a.integral && b.integral then a.integral_value == b.integral_value
  else (a.floating_point_value.sub b.floating_point_value).abs.lt EPSILON

/-- `operator<`: exact on two integrals, floating comparison otherwise. -/
def lt (a b : number) : Bool :=
  if a.integral && b.integral then a.integral_value < b.integral_value
  else a.floating_point_value.lt b.floating_point_value

def le (a b : number) : Bool := lt a b || eq a b

def gt (a b : number) : Bool := !(le a b)

def ge (a b : number) : Bool := !(lt a b)

end number

/-! ### Printing numbers

`operator<<(std::ostream&, number const&)` prints the cached integer for an
integral number and otherwise prints the double with `std::showpoint` under
the stream defaults (general floating format, precision 6) — i.e. C `%#g`:
6 significant digits, trailing zeros kept, fixed form for decimal exponents
in [-4, 5] and scientific form otherwise.  The formatter below mirrors that
on exact fractions; the tie-breaking of the 6-significant-digit rounding is
idealized as round-half-up (no claim depends on a tie). -/

/-- Number of decimal digits of a positive natural (fuel-driven decimal
shift loop; the fuel `n + 1` always suffices). -/
def digits10Aux : Nat → Nat → Nat
  | 0, _ => 1
  | fuel + 1, n => if n < 10 then 1 else digits10Aux fuel (n / 10) + 1

def digits10 (n : Nat) : Nat := digits10Aux n n

/-- Smallest `k ≥ 1` with `n * 10 ^ k ≥ d`, for `0 < n < d`: the number of
leading zeros (plus one) of the fraction `n / d` after the decimal point. -/
def smallExpAux : Nat → Nat → Nat → Nat → Nat
  | 0, k, _, _ => k
  | fuel + 1, k, n, d => if d ≤ n * 10 ^ k then k else smallExpAux fuel (k + 1) n d

def smallExp (n d : Nat) : Nat := smallExpAux (digits10 d + 1) 1 n d

/-- `round(a / b)` for naturals with round-half-up. -/
def roundDiv (a b : Nat) : Nat := (2 * a + b) / (2 * b)

/-- Fixed (`%f`-style) layout of 6 significant digits `sig` with decimal
exponent `X` in [-4, 5]. -/
def fixedForm (sig : Nat) (X : Int) : String :=
  let ds := (toString sig).data
  if X ≥ 0 then
    String.mk (ds.take (X.toNat + 1)) ++ "." ++ String.mk (ds.drop (X.toNat + 1))
  else
    "0." ++ String.mk (List.replicate ((-X).toNat - 1) '0') ++ String.mk ds

/-- Scientific (`%e`-style) layout of 6 significant digits with exponent. -/
def sciForm (sig : Nat) (X : Int) : String :=
  let ds := (toString sig).data
  let ex := (X.natAbs)
  String.mk (ds.take 1) ++ "." ++ String.mk (ds.drop 1) ++ "e" ++
    (if X ≥ 0 then "+" else "-") ++ (if ex < 10 then "0" else "") ++ toString ex

/-- `%#g` with precision 6 on an exact fraction. -/
def formatShowpoint (f : Frac) : String :=
  if f.num = 0 then "0.00000"
  else
    let sign := if f.num < 0 then "-" else ""
    let n := f.num.natAbs
    let d := f.den
    let X : Int := if d ≤ n then ((digits10 (n / d) : Int) - 1) else -((smallExp n d : Int))
    let sig := if X ≤ 5 then roundDiv (n * 10 ^ ((5 - X).toNat)) d
               else roundDiv n (d * 10 ^ ((X - 5).toNat))
    let sig' := if sig = 10 ^ 6 then 10 ^ 5 else sig
    let X' := if sig = 10 ^ 6 then X + 1 else X
    if -4 ≤ X' ∧ X' < 6 then sign ++ fixedForm sig' X' else sign ++ sciForm sig' X'

/-- `operator<<(std::ostream&, number const&)` (number.cc lines 181-187). -/
def number.display (n : number) : String :=
  if n.integral then toString n.integral_value else formatShowpoint n.floating_point_value


/-! ### Abstract syntax (statements.hh)

The virtual-method hierarchy of the source becomes tagged variants; the
non-virtual `execute`/`evaluate` wrappers that merely delegate to `do_*`
are collapsed. -/

inductive arith_op where
  | operator_plus | operator_minus | operator_times | operator_divides | operator_modulo

inductive rel_op where
  | operator_equals | operator_doesnt_equal | operator_less_than
  | operator_less_equal | operator_greater_than | operator_greater_equal

inductive bool_op where
  | operator_and | operator_or | operator_not

inductive numeric_expr where
  | constant (value : number)
  | var (name : String)
  | arith (left right : numeric_expr) (op : arith_op)
  | rel (left right : numeric_expr) (op : rel_op)
  /- `right` is none iff op is operator_not (boolean_expr's invariant). -/
  | boolean (left : numeric_expr) (right : Option numeric_expr) (op : bool_op)

inductive string_expr where
  | literal (value : String)
  | svar (var_name : String)
  | concat (left right : string_expr)

/-- `printable_expr`: the common interface of numeric and string expressions. -/
inductive printable_expr where
  | num (e : numeric_expr)
  | str (e : string_expr)

mutual

inductive stmt where
  | if_goto (condition : numeric_expr) (then_label else_label : String)
  | if_block (conditions : List numeric_expr) (blocks : List block)
  | do_while (condition : numeric_expr) (body : block)
  | forS (variable_name : String) (initial finalE stepE : numeric_expr) (body : block)
  | print (expressions : List printable_expr)
  | input (var_name : String)
  | let_numeric (var_name : String) (value : numeric_expr)
  | let_string (var_name : String) (value : string_expr)
  | goto (label : String)
  | stop
  | exit (what : String)
  | empty

/-- A `block`: ordered statements plus a jump table from label to position in
the statement list (`std::map` keyed by label, modelled as an association
list with unique keys). -/
inductive block where
  | mk (statements : List stmt) (jump_table : List (String × Nat))

end

def block.statements : block → List stmt
  | .mk s _ => s

def block.jump_table : block → List (String × Nat)
  | .mk _ j => j

/-- The runtime identity of a `block_statement` (DO or FOR) attached to an
activation frame.  The C++ `for_stmt` object carries two mutable scratch
fields (`step`, `final_value`) set by `do_execute` and read by `do_iterate`;
here that scratch state rides on the frame's owner reference, which is
behaviorally identical as long as a FOR is not re-entered while a previous
activation is still live (the source itself is non-reentrant there, see the
design notes of the repository). -/
inductive block_statement where
  | do_stmt (condition : numeric_expr) (body : block)
  | for_stmt (variable_name : String) (stepN final_value : number) (body : block)

/-- `block_statement::get_name`: "do" for DO, "for" for FOR. -/
def block_statement.get_name : block_statement → String
  | .do_stmt _ _ => "do"
  | .for_stmt _ _ _ _ => "for"

/-- An activation frame (`interpreter::execution_block`). -/
structure execution_block where
  statement : Option block_statement
  blk : block
  current_statement : Nat
  numeric_variables : List (String × number)
  string_variables : List (String × String)

/-- The interpreter state: the frame stack (front = innermost), the stop
flag, and the two standard streams (output accumulated, input as a list of
pending lines). -/
structure interp where
  blocks : List execution_block
  should_stop : Bool
  output : String
  inputLines : List String

/-! ### The variable store (interpreter.cc lines 82-138) -/

/-- First-match lookup in an association list (the maps have unique keys, so
this is exactly `std::map::find`). -/
def lookupVar {α : Type} (m : List (String × α)) (name : String) : Option α :=
  List.lookup name m

/-- Overwrite the value of an existing key (`var->second = value`). -/
def updateVar {α : Type} : List (String × α) → String → α → List (String × α)
  | [], _, _ => []
  | (k, v) :: rest, name, value =>
    if k = name then (k, value) :: rest else (k, v) :: updateVar rest name value

/-- `interpreter::find_var` returns the innermost (frontmost) frame whose
map contains the name; `set_var` overwrites there, in place. -/
def update_in_frames (get : execution_block → List (String × α))
    (set : execution_block → List (String × α) → execution_block) :
    List execution_block → String → α → List execution_block
  | [], _, _ => []
  | f :: rest, name, value =>
    if (lookupVar (get f) name).isSome then
      set f (updateVar (get f) name value) :: rest
    else
      f :: update_in_frames get set rest name value

/-- `interpreter::set_var`: if some frame contains the name, overwrite it in
the innermost such frame; otherwise insert into the top frame.  (With an
empty frame stack the C++ would read `blocks.front()` — that never happens
while a statement executes, and the model returns the stack unchanged.) -/
def set_var (get : execution_block → List (String × α))
    (set : execution_block → List (String × α) → execution_block) :
    List execution_block → String → α → List execution_block
  | [], _, _ => []
  | f :: rest, name, value =>
    if (f :: rest).any (fun fr => (lookupVar (get fr) name).isSome) then
      update_in_frames get set (f :: rest) name value
    else
      set f (get f ++ [(name, value)]) :: rest

/-- `interpreter::get_var`: scan frames front to back, return the first
match, else the runtime failure "Variable <name> undefined". -/
def get_var (get : execution_block → List (String × α)) :
    List execution_block → String → Except err α
  | [], name => Except.error (err.rtError ("Variable " ++ name ++ " undefined"))
  | f :: rest, name =>
    match lookupVar (get f) name with
    | some v => Except.ok v
    | none => get_var get rest name

def numGet (f : execution_block) : List (String × number) := f.numeric_variables

def numSet (f : execution_block) (m : List (String × number)) : execution_block :=
  { f with numeric_variables := m }

def strGet (f : execution_block) : List (String × String) := f.string_variables

def strSet (f : execution_block) (m : List (String × String)) : execution_block :=
  { f with string_variables := m }

/-- `interpreter::set_var_numeric`. -/
def interp.set_var_numeric (s : interp) (name : String) (value : number) : interp :=
  { s with blocks := set_var numGet numSet s.blocks name value }

/-- `interpreter::set_var_string`. -/
def interp.set_var_string (s : interp) (name value : String) : interp :=
  { s with blocks := set_var strGet strSet s.blocks name value }

/-- `interpreter::get_var_numeric`. -/
def interp.get_var_numeric (s : interp) (name : String) : Except err number :=
  get_var numGet s.blocks name

/-- `interpreter::get_var_string`. -/
def interp.get_var_string (s : interp) (name : String) : Except err String :=
  get_var strGet s.blocks name

/-! ### Expression evaluation (statements.cc lines 29-171) -/

/-- C++ implicit bool → int → number conversion used by relational and
boolean expressions. -/
def boolToNumber (b : Bool) : number := number.ofInt (if b then 1 else 0)

def rel_op.apply : rel_op → number → number → Bool
  | .operator_equals, a, b => number.eq a b
  | .operator_doesnt_equal, a, b => !(number.eq a b)
  | .operator_less_than, a, b => number.lt a b
  | .operator_less_equal, a, b => number.le a b
  | .operator_greater_than, a, b => number.gt a b
  | .operator_greater_equal, a, b => number.ge a b

/-- `numeric_expr::evaluate`.  Left operands evaluate before right ones;
`&&` / `||` short-circuit as in C++, so a false left operand of AND
suppresses evaluation (and hence errors) of the right operand. -/
def eval_numeric : numeric_expr → interp → Except err number
  | .constant v, _ => Except.ok v
  | .var name, s => s.get_var_numeric name
  | .arith l r op, s => do
    let a ← eval_numeric l s
    match op with
    | .operator_plus => do let b ← eval_numeric r s; Except.ok (number.add a b)
    | .operator_minus => do let b ← eval_numeric r s; Except.ok (number.sub a b)
    | .operator_times => do let b ← eval_numeric r s; Except.ok (number.mul a b)
    | .operator_modulo => do let b ← eval_numeric r s; number.mod a b
    | .operator_divides => do let b ← eval_numeric r s; number.div a b
  | .rel l r op, s => do
    let a ← eval_numeric l s
    let b ← eval_numeric r s
    Except.ok (boolToNumber (op.apply a b))
  | .boolean l r op, s =>
    match op with
    | .operator_and => do
      let a ← eval_numeric l s
      if a.is_true then do
        let b ← (match r with
                 | some re => eval_numeric re s
                 | none => Except.error (err.ubError "null right operand"))
        Except.ok (boolToNumber b.is_true)
      else Except.ok (boolToNumber false)
    | .operator_or => do
      let a ← eval_numeric l s
      if a.is_true then Except.ok (boolToNumber true)
      else do
        let b ← (match r with
                 | some re => eval_numeric re s
                 | none => Except.error (err.ubError "null right operand"))
        Except.ok (boolToNumber b.is_true)
    | .operator_not => do
      let a ← eval_numeric l s
      Except.ok (boolToNumber (!a.is_true))

/-- `string_expr::evaluate` (operand order of the `+` concatenation is
unspecified in C++03; left-then-right is chosen here). -/
def eval_string : string_expr → interp → Except err String
  | .literal v, _ => Except.ok v
  | .svar name, s => s.get_var_string name
  | .concat l r, s => do
    let a ← eval_string l s
    let b ← eval_string r s
    Except.ok (a ++ b)

/-- `printable_expr::get_representation`: a numeric expression renders its
value through `operator<<`; a string expression is its value. -/
def get_representation : printable_expr → interp → Except err String
  | .num e, s => do let v ← eval_numeric e s; Except.ok v.display
  | .str e, s => eval_string e s

/-! ### The execution engine (interpreter.cc, statements.cc) -/

/-- `interpreter::enter_block`: push a frame with the cursor at the start. -/
def interp.enter_block (s : interp) (b : block) (st : Option block_statement) : interp :=
  { s with blocks := ⟨st, b, 0, [], []⟩ :: s.blocks }

/-- `interpreter::jump`: pop frames until one whose block's jump table
contains the label; set that frame's cursor.  Runtime failure if no frame
contains the label. -/
def jump_frames : List execution_block → String → Except err (List execution_block)
  | [], label => Except.error (err.rtError ("Jump to undefined label " ++ label))
  | f :: rest, label =>
    match lookupVar f.blk.jump_table label with
    | some target => Except.ok ({ f with current_statement := target } :: rest)
    | none => jump_frames rest label

def interp.jump (s : interp) (label : String) : Except err interp := do
  let bs ← jump_frames s.blocks label
  Except.ok { s with blocks := bs }

/-- `interpreter::exit_block(name)`: pop frames until the just-popped frame's
attached block statement has the given name (a frame without one has popped
name "").  Runtime failure if the stack empties first. -/
def exit_frames : List execution_block → String → Except err (List execution_block)
  | [], name => Except.error (err.rtError ("Cannot EXIT " ++ name ++ ": No such block"))
  | f :: rest, name =>
    let popped_name := match f.statement with
      | some bs => bs.get_name
      | none => ""
    if popped_name = name then Except.ok rest else exit_frames rest name

/-- `interpreter::stop`: clear the frame stack and set the stop flag. -/
def interp.stop (s : interp) : interp := { s with blocks := [], should_stop := true }

/-- The loop-entry / loop-continuation condition of `for_stmt`
(statements.cc lines 252-253 and 262-263):
`(step > 0 and var <= final) or (step < 0 and var >= final)`. -/
def for_condition (stepN v final_value : number) : Bool :=
  (number.gt stepN (number.ofInt 0) && number.le v final_value) ||
  (number.lt stepN (number.ofInt 0) && number.ge v final_value)

/-- `std::istream >> int` on one line of input: skip whitespace, read an
optional sign and a maximal nonempty digit run, ignore the rest of the line
(overflow clamping of the C++ extraction is idealized away). -/
def digitsValue : List Char → Nat → List Char → Option Int
  | [], acc, firstRun => if firstRun.isEmpty then none else some acc
  | c :: cs, acc, firstRun =>
    if c.isDigit then digitsValue cs (acc * 10 + (c.toNat - '0'.toNat)) (firstRun ++ [c])
    else if firstRun.isEmpty then none else some acc

def isCppSpace (c : Char) : Bool :=
  c = ' ' || c = '\t' || c = '\n' || c = '\r' || c = '\x0b' || c = '\x0c'

def cppReadInt (line : String) : Option Int :=
  let cs := line.data.dropWhile isCppSpace
  match cs with
  | '-' :: rest => (digitsValue rest 0 []).map (fun v => -v)
  | '+' :: rest => digitsValue rest 0 []
  | _ => digitsValue cs 0 []

/-- `do_stmt::do_iterate` / `for_stmt::do_iterate`, invoked by the main loop
when a frame owned by a DO or FOR unwinds. -/
def iterate : block_statement → interp → Except err interp
  | .do_stmt condition body, s => do
    let c ← eval_numeric condition s
    if c.is_true then Except.ok (s.enter_block body (some (.do_stmt condition body)))
    else Except.ok s
  | .for_stmt variable_name stepN final_value body, s => do
    let v ← s.get_var_numeric variable_name
    let iterator_value := number.add v stepN
    let s' := s.set_var_numeric variable_name iterator_value
    if for_condition stepN iterator_value final_value then
      Except.ok (s'.enter_block body (some (.for_stmt variable_name stepN final_value body)))
    else Except.ok s'

/-- The clause-selection loop of `if_block_stmt::do_execute`: first true
condition enters its block; if none matched and the original vectors
satisfied `blocks.size() == conditions.size() + 1`, the trailing ELSE block
is entered.  A condition without a block would index out of range. -/
def run_if_block : List numeric_expr → List block → interp → Except err interp
  | c :: cs, b :: bs, s => do
    let v ← eval_numeric c s
    if v.is_true then Except.ok (s.enter_block b none) else run_if_block cs bs s
  | _ :: _, [], _ => Except.error (err.ubError "if_block_stmt: blocks shorter than conditions")
  | [], [b], s => Except.ok (s.enter_block b none)
  | [], _, s => Except.ok s

/-- The per-expression body of `print_stmt::do_execute`: representations are
printed one at a time (output before a failing expression is kept), then a
single newline. -/
def run_print : List printable_expr → interp → Except err interp
  | [], s => Except.ok { s with output := s.output ++ "\n" }
  | e :: es, s => do
    let r ← get_representation e s
    run_print es { s with output := s.output ++ r }

/-- `statement::execute` (dispatch over `do_execute` of every concrete
statement, statements.cc). -/
def execute : stmt → interp → Except err interp
  | .if_goto condition then_label else_label, s => do
    let c ← eval_numeric condition s
    if c.is_true then s.jump then_label
    else if else_label ≠ "" then s.jump else_label
    else Except.ok s
  | .if_block conditions blocks, s => run_if_block conditions blocks s
  | .do_while condition body, s => iterate (.do_stmt condition body) s
  | .forS variable_name initial finalE stepE body, s => do
    let iv ← eval_numeric initial s
    let s1 := s.set_var_numeric variable_name iv
    let stepN ← eval_numeric stepE s1
    let final_value ← eval_numeric finalE s1
    let c1 ← (if number.gt stepN (number.ofInt 0) then do
                let v ← s1.get_var_numeric variable_name
                Except.ok (number.le v final_value)
              else Except.ok false)
    let c2 ← (if c1 then Except.ok false
              else if number.lt stepN (number.ofInt 0) then do
                let v ← s1.get_var_numeric variable_name
                Except.ok (number.ge v final_value)
              else Except.ok false)
    if c1 || c2 then
      Except.ok (s1.enter_block body (some (.for_stmt variable_name stepN final_value body)))
    else Except.ok s1
  | .print expressions, s => run_print expressions s
  | .input var_name, s =>
    let s1 := { s with output := s.output ++ "? " }
    let line := s1.inputLines.headD ""
    let s2 := { s1 with inputLines := s1.inputLines.tail }
    match cppReadInt line with
    | some v => Except.ok (s2.set_var_numeric var_name (number.ofInt v))
    | none => Except.error (err.rtError "User input error: expected an integer")
  | .let_numeric var_name value, s => do
    let v ← eval_numeric value s
    Except.ok (s.set_var_numeric var_name v)
  | .let_string var_name value, s => do
    let v ← eval_string value s
    Except.ok (s.set_var_string var_name v)
  | .goto label, s => s.jump label
  | .stop, s => Except.ok s.stop
  | .exit what, s => do
    let bs ← exit_frames s.blocks what
    Except.ok { s with blocks := bs }
  | .empty, s => Except.ok s

/-- The inner `while` of `interpreter::run` (interpreter.cc lines 22-27).
Its condition evaluates `blocks.front().current_statement` **before**
testing `should_stop`; on an empty frame stack that very read is undefined
behavior (`std::deque::front` on an empty deque), surfaced here as
`ubError`.  `none` means the fuel ran out, never a program behavior. -/
def inner_loop : Nat → interp → Option (Except err interp)
  | 0, _ => none
  | fuel + 1, s =>
    match s.blocks with
    | [] => some (Except.error (err.ubError "std::deque::front on empty frame stack"))
    | f :: rest =>
      match f.blk.statements[f.current_statement]? with
      | none => some (Except.ok s)
      | some st =>
        if s.should_stop then some (Except.ok s)
        else
          let s1 := { s with blocks := { f with current_statement := f.current_statement + 1 } :: rest }
          match execute st s1 with
          | .ok s2 => inner_loop fuel s2
          | .error e => some (.error e)

/-- The outer `while` of `interpreter::run` (interpreter.cc lines 21-33):
after the inner loop, line 29 reads `blocks.front().statement` (again
undefined behavior on an empty stack), pops the frame, and invokes the
owner's `iterate` if one was attached. -/
def run_loop : Nat → interp → Option (Except err interp)
  | 0, _ => none
  | fuel + 1, s =>
    if s.blocks.isEmpty || s.should_stop then some (Except.ok s)
    else
      match inner_loop fuel s with
      | none => none
      | some (.error e) => some (.error e)
      | some (.ok s1) =>
        match s1.blocks with
        | [] => some (Except.error (err.ubError "std::deque::front on empty frame stack"))
        | f :: rest =>
          let st := f.statement
          let s2 := { s1 with blocks := rest }
          match st with
          | none => run_loop fuel s2
          | some bs =>
            match iterate bs s2 with
            | .ok s3 => run_loop fuel s3
            | .error e => some (.error e)

/-- `interpreter::run`: reset the stop flag, then the nested loops. -/
def interp.run (fuel : Nat) (s : interp) : Option (Except err interp) :=
  run_loop fuel { s with should_stop := false }

/-- `interpreter::interpreter`: a fresh state whose stack holds one bottom
frame for the root block. -/
def interp.make (b : block) (inputLines : List String) : interp :=
  { blocks := [⟨none, b, 0, [], []⟩], should_stop := false, output := "", inputLines := inputLines }

/-! ### The lexer (lexer.cc) -/

inductive lexeme_type where
  | type_end | type_number | type_string | type_symbol | type_word
  deriving DecidableEq

/-- A lexeme with its physical location (the filename is a constant of the
surrounding program and is omitted). -/
structure lexeme where
  type : lexeme_type
  value : String
  line : Nat
  col : Nat
  deriving DecidableEq

/-- The leading-zero stripping of the `lexeme` constructor: applied when the
value starts with '0' and has further characters; a value of only zeros is
left unchanged (`find_first_not_of` returns npos). -/
def stripZeros (v : String) : String :=
  match v.data with
  | '0' :: _ :: _ =>
    let rest := v.data.dropWhile (fun c => c = '0')
    if rest.isEmpty then v else String.mk rest
  | _ => v

/-- The `lexeme` constructor: words are lowercased, numbers lose leading
zeros. -/
def mkLexeme (t : lexeme_type) (value : String) (line col : Nat) : lexeme :=
  if t = lexeme_type.type_word then ⟨t, String.mk (value.data.map Char.toLower), line, col⟩
  else if t = lexeme_type.type_number then ⟨t, stripZeros value, line, col⟩
  else ⟨t, value, line, col⟩

/-- The lexer's state: remaining input and the tracked position. -/
structure lexer_state where
  input : List Char
  line : Nat
  col : Nat
  deriving DecidableEq

def isWsChar (c : Char) : Bool := c = ' ' || c = '\t'

/-- The characters accepted inside an identifier after the first:
`isalnum || '_' || '$'`. -/
def isAlphanumChar (c : Char) : Bool := c.isAlphanum || c = '_' || c = '$'

def SIMPLE_SYMBOLS : List Char := ['+', '-', '*', '/', '&', '=', ':', ',', '(', ')']

/-- `lexer::skip_whitespace`. -/
def skip_whitespace (ls : lexer_state) : lexer_state :=
  let ws := ls.input.takeWhile isWsChar
  { ls with input := ls.input.dropWhile isWsChar, col := ls.col + ws.length }

/-- The newline-folding loop of `get_lexeme`: each '\n' advances the line,
resets the column and skips trailing blanks, until the next character is not
a newline.  One fuel unit per newline consumed. -/
def skipNewlines : Nat → lexer_state → lexer_state
  | 0, ls => ls
  | fuel + 1, ls =>
    match ls.input with
    | '\n' :: rest =>
      let ws := rest.takeWhile isWsChar
      skipNewlines fuel ⟨rest.dropWhile isWsChar, ls.line + 1, ws.length⟩
    | _ => ls

/-- `lexer::get_lexeme`: one lexeme (or none at end of input) per call. -/
def get_lexeme (ls0 : lexer_state) : Except err (Option lexeme × lexer_state) :=
  let ls := skip_whitespace ls0
  match ls.input with
  | [] => Except.ok (none, ls)
  | c :: rest =>
    if c.isDigit then
      let whole := ls.input.takeWhile Char.isDigit
      let r1 := ls.input.dropWhile Char.isDigit
      let col1 := ls.col + whole.length
      match r1 with
      | '.' :: r2 =>
        let dec := r2.takeWhile Char.isDigit
        let r3 := r2.dropWhile Char.isDigit
        let col2 := col1 + 1 + dec.length
        Except.ok (some (mkLexeme .type_number (String.mk (whole ++ '.' :: dec)) ls.line col2),
                   ⟨r3, ls.line, col2⟩)
      | _ =>
        Except.ok (some (mkLexeme .type_number (String.mk whole) ls.line col1), ⟨r1, ls.line, col1⟩)
    else if c = '"' then
      let value := rest.takeWhile (fun x => x ≠ '"')
      let r1 := rest.dropWhile (fun x => x ≠ '"')
      let col1 := ls.col + 1 + value.length
      let result := mkLexeme .type_string (String.mk value) ls.line col1
      Except.ok (some result, ⟨r1.tail, ls.line, col1 + 1⟩)
    else if SIMPLE_SYMBOLS.contains c then
      Except.ok (some (mkLexeme .type_symbol (String.mk [c]) ls.line (ls.col + 1)),
                 ⟨rest, ls.line, ls.col + 1⟩)
    else if c = '<' || c = '>' then
      match rest with
      | second :: r2 =>
        if second = '>' || second = '=' then
          if second = '=' || (c = '<' && second = '>') then
            Except.ok (some (mkLexeme .type_symbol (String.mk [c, second]) ls.line (ls.col + 2)),
                       ⟨r2, ls.line, ls.col + 2⟩)
          else
            Except.error (err.lexError (String.mk ('I' :: "nvalid operator: ".data.tail ++ [c, second])))
        else
          Except.ok (some (mkLexeme .type_symbol (String.mk [c]) ls.line (ls.col + 1)),
                     ⟨rest, ls.line, ls.col + 1⟩)
      | [] =>
        Except.ok (some (mkLexeme .type_symbol (String.mk [c]) ls.line (ls.col + 1)),
                   ⟨rest, ls.line, ls.col + 1⟩)
    else if c = '\n' then
      let ls1 := skipNewlines (ls.input.length) ls
      Except.ok (some (mkLexeme .type_end "" ls1.line ls1.col), ls1)
    else if c.isAlpha then
      let value := ls.input.takeWhile isAlphanumChar
      let r1 := ls.input.dropWhile isAlphanumChar
      let col1 := ls.col + value.length
      Except.ok (some (mkLexeme .type_word (String.mk value) ls.line col1), ⟨r1, ls.line, col1⟩)
    else
      Except.error (err.lexError ("Invalid character at input: " ++ String.mk [c] ++
        " (" ++ toString c.toNat ++ ")"))

/-- `lexer::ignore_line`: discard input up to (not including) the next
newline. -/
def ignore_line (ls : lexer_state) : lexer_state :=
  let skipped := ls.input.takeWhile (fun c => c ≠ '\n')
  { ls with input := ls.input.dropWhile (fun c => c ≠ '\n'), col := ls.col + skipped.length }

/-! ### The parser (parser.cc)

The parser keeps exactly one lexeme of look-ahead (`next_symbol`) over the
live lexer state; all recursive-descent routines are driven by fuel (first
argument), and running out of fuel is a distinguished outcome `pfail.fuelOut`
that never occurs when the fuel exceeds the remaining input. -/

inductive pfail where
  | fail (e : err)
  | fuelOut

structure parse_state where
  next_symbol : Option lexeme
  ls : lexer_state

def liftL {α : Type} : Except err α → Except pfail α
  | .ok a => .ok a
  | .error e => .error (.fail e)

/-- `to_string(lexeme::e_type)` of parser.cc. -/
def lexeme_type.describe : lexeme_type → String
  | .type_end => "end of line"
  | .type_number => "integral literal"
  | .type_string => "string literal"
  | .type_symbol => "operator"
  | .type_word => "identifier or keyword"

/-- The `error` helper of parser.cc: a syntax error, prefixed with the
physical location when an offending lexeme is at hand. -/
def mk_error (what : String) (loc : Option lexeme) : err :=
  err.synError ((match loc with
    | some lx => "line " ++ toString lx.line ++ ", column " ++ toString lx.col ++ ": "
    | none => "") ++ what)

/-- Unconditional `accept`: yield the look-ahead and refill it. -/
def accept_any (ps : parse_state) : Except pfail (Option lexeme × parse_state) := do
  let (nx, ls') ← liftL (get_lexeme ps.ls)
  Except.ok (ps.next_symbol, ⟨nx, ls'⟩)

/-- Conditional `accept`: on a type (and optional value) match, consume and
return the look-ahead; otherwise return nothing and leave the state alone. -/
def accept_tv (ps : parse_state) (what : lexeme_type) (value : Option String) :
    Except pfail (Option lexeme × parse_state) :=
  match ps.next_symbol with
  | some nx =>
    if nx.type = what ∧ (value = none ∨ value = some nx.value) then accept_any ps
    else Except.ok (none, ps)
  | none => Except.ok (none, ps)

/-- `expect`: like accept, but failure is a syntax error naming what was
expected, what was found, and where. -/
def expect_tv (ps : parse_state) (what : lexeme_type) (value : Option String) :
    Except pfail (lexeme × parse_state) := do
  let (r, ps1) ← accept_tv ps what value
  match r with
  | some lx => Except.ok (lx, ps1)
  | none => do
    let head := "Expected " ++ (match value with
      | some v => v
      | none => what.describe) ++ ", got "
    let (offending, _) ← accept_any ps1
    match offending with
    | some lx =>
      Except.error (.fail (mk_error (head ++ (match value with
        | some _ => lx.value
        | none => lx.type.describe)) (some lx)))
    | none => Except.error (.fail (mk_error (head ++ "end of input") none))

/-- `is_string_identifier`: a nonempty identifier whose last character is
'$'. -/
def is_string_identifier (identifier : String) : Bool :=
  !identifier.isEmpty && identifier.data.getLast? = some '$'

def BLOCK_TERMINATORS : List String := ["end", "else", "elseif", "next", "loop"]

/-- Digit-run value for the numeric-literal parses below. -/
def digitsToNat : List Char → Nat → Nat
  | [], acc => acc
  | c :: cs, acc => digitsToNat cs (acc * 10 + (c.toNat - '0'.toNat))

/-- `std::istream >> double` on a lexer-produced numeric value
(`digits ['.' digits]`, either run possibly empty but not both). -/
def cppReadDouble (v : String) : Option Frac :=
  let ip := v.data.takeWhile Char.isDigit
  let r := v.data.dropWhile Char.isDigit
  match r with
  | '.' :: r2 =>
    let fp := r2.takeWhile Char.isDigit
    if ip.isEmpty && fp.isEmpty then none
    else some ⟨(digitsToNat ip 0 * 10 ^ fp.length + digitsToNat fp 0 : Nat), 10 ^ fp.length⟩
  | _ => if ip.isEmpty then none else some ⟨(digitsToNat ip 0 : Nat), 1⟩

/-- The constant built by `parse_factor` from a numeric lexeme: values
without a '.' go through `int` extraction, values with one through `double`
extraction; the sign multiplies the extracted value.  (The lexer only emits
parseable values, so the failure branches are unreachable.) -/
def factor_constant (sign : Int) (value : String) : Except pfail numeric_expr :=
  if value.data.contains '.' then
    match cppReadDouble value with
    | some f => Except.ok (.constant (number.ofDouble (Frac.mul (Frac.ofInt sign) f)))
    | none => Except.error (.fail (err.ubError "uninitialized read of a failed extraction"))
  else
    match cppReadInt value with
    | some v => Except.ok (.constant (number.ofInt (sign * v)))
    | none => Except.error (.fail (err.ubError "uninitialized read of a failed extraction"))

/-- The newline-skipping loop between a label's ':' and its statement. -/
def skip_end_lexemes : Nat → parse_state → Except pfail parse_state
  | 0, _ => Except.error .fuelOut
  | fuel + 1, ps =>
    match ps.next_symbol with
    | some lx =>
      if lx.type = lexeme_type.type_end then do
        let (_, ps') ← accept_any ps
        skip_end_lexemes fuel ps'
      else Except.ok ps
    | none => Except.ok ps

/-- `std::map::insert` into a jump table: a later duplicate key is silently
ignored, the earlier binding wins. -/
def insertJT (jt : List (String × Nat)) (label : String) (pos : Nat) : List (String × Nat) :=
  if (List.lookup label jt).isSome then jt else jt ++ [(label, pos)]

/-- One parsed line appended to a block under construction: the statement
goes to the end of the statement list; a nonempty label is inserted into the
jump table at the statement's position (parse_block, parser.cc lines
340-357). -/
def block.addLine (b : block) (label : String) (st : stmt) : block :=
  block.mk (b.statements ++ [st])
    (if label ≠ "" then insertJT b.jump_table label b.statements.length else b.jump_table)

/-- The result of `parse_line`: a (possibly labelled) statement, or a block
terminator keyword. -/
inductive line_result where
  | stmtLine (label : String) (s : stmt)
  | termLine (kw : String)

mutual

/-- `parse_factor`: optional '-', then a numeric constant, a non-string
identifier, or a parenthesized numeric expression (whose sign, as in the
source, is dropped). -/
def parse_factor : Nat → parse_state → Except pfail (numeric_expr × parse_state)
  | 0, _ => Except.error .fuelOut
  | fuel + 1, ps => do
    let (sgn, ps) ← accept_tv ps .type_symbol (some "-")
    let sign : Int := if sgn.isSome then -1 else 1
    let (numL, ps) ← accept_tv ps .type_number none
    match numL with
    | some lx => do
      let e ← factor_constant sign lx.value
      Except.ok (e, ps)
    | none => do
      let (wordL, ps) ← accept_tv ps .type_word none
      match wordL with
      | some lx =>
        if !(is_string_identifier lx.value) then
          if sign > 0 then Except.ok (.var lx.value, ps)
          else Except.ok (.arith (.constant (number.ofInt (-1))) (.var lx.value) .operator_times, ps)
        else Except.error (.fail (mk_error "String identifier in numeric expression" (some lx)))
      | none => do
        let (parenL, ps) ← accept_tv ps .type_symbol (some "(")
        if parenL.isSome then do
          let (sub, ps) ← parse_numeric_expr fuel ps
          let (_, ps) ← expect_tv ps .type_symbol (some ")")
          Except.ok (sub, ps)
        else do
          let (strL, ps) ← accept_tv ps .type_string none
          match strL with
          | some lx => Except.error (.fail (mk_error "String literal in numeric expression" (some lx)))
          | none => do
            let (off, _) ← accept_any ps
            Except.error (.fail (mk_error
              "Expected an integral constant, a variable name, or an opening parenthesis" off))

/-- `parse_term`: a factor optionally followed by exactly one `* / mod`
and a second factor (the source does not iterate this level). -/
def parse_term : Nat → parse_state → Except pfail (numeric_expr × parse_state)
  | 0, _ => Except.error .fuelOut
  | fuel + 1, ps => do
    let (left_side, ps) ← parse_factor fuel ps
    let (t, ps) ← accept_tv ps .type_symbol (some "*")
    if t.isSome then do
      let (right_side, ps) ← parse_factor fuel ps
      Except.ok (.arith left_side right_side .operator_times, ps)
    else do
      let (d, ps) ← accept_tv ps .type_symbol (some "/")
      if d.isSome then do
        let (right_side, ps) ← parse_factor fuel ps
        Except.ok (.arith left_side right_side .operator_divides, ps)
      else do
        let (m, ps) ← accept_tv ps .type_word (some "mod")
        if m.isSome then do
          let (right_side, ps) ← parse_factor fuel ps
          Except.ok (.arith left_side right_side .operator_modulo, ps)
        else Except.ok (left_side, ps)

/-- `parse_integer_expr` (parser.cc lines 177-189): a term, then `+` or `-`
followed by a **recursive** `parse_integer_expr` — the additive level is
right-recursive, so `a - b - c` groups as `a - (b - c)`. -/
def parse_integer_expr : Nat → parse_state → Except pfail (numeric_expr × parse_state)
  | 0, _ => Except.error .fuelOut
  | fuel + 1, ps => do
    let (left_side, ps) ← parse_term fuel ps
    let (p, ps) ← accept_tv ps .type_symbol (some "+")
    if p.isSome then do
      let (right_side, ps) ← parse_integer_expr fuel ps
      Except.ok (.arith left_side right_side .operator_plus, ps)
    else do
      let (m, ps) ← accept_tv ps .type_symbol (some "-")
      if m.isSome then do
        let (right_side, ps) ← parse_integer_expr fuel ps
        Except.ok (.arith left_side right_side .operator_minus, ps)
      else Except.ok (left_side, ps)

/-- `parse_relational_expr`: an integer expression, optionally one
relational operator and a second integer expression. -/
def parse_relational_expr : Nat → parse_state → Except pfail (numeric_expr × parse_state)
  | 0, _ => Except.error .fuelOut
  | fuel + 1, ps => do
    let (left_side, ps) ← parse_integer_expr fuel ps
    let (r1, ps) ← accept_tv ps .type_symbol (some "=")
    if r1.isSome then do
      let (right_side, ps) ← parse_integer_expr fuel ps
      Except.ok (.rel left_side right_side .operator_equals, ps)
    else do
    let (r2, ps) ← accept_tv ps .type_symbol (some "<>")
    if r2.isSome then do
      let (right_side, ps) ← parse_integer_expr fuel ps
      Except.ok (.rel left_side right_side .operator_doesnt_equal, ps)
    else do
    let (r3, ps) ← accept_tv ps .type_symbol (some "<")
    if r3.isSome then do
      let (right_side, ps) ← parse_integer_expr fuel ps
      Except.ok (.rel left_side right_side .operator_less_than, ps)
    else do
    let (r4, ps) ← accept_tv ps .type_symbol (some "<=")
    if r4.isSome then do
      let (right_side, ps) ← parse_integer_expr fuel ps
      Except.ok (.rel left_side right_side .operator_less_equal, ps)
    else do
    let (r5, ps) ← accept_tv ps .type_symbol (some ">")
    if r5.isSome then do
      let (right_side, ps) ← parse_integer_expr fuel ps
      Except.ok (.rel left_side right_side .operator_greater_than, ps)
    else do
    let (r6, ps) ← accept_tv ps .type_symbol (some ">=")
    if r6.isSome then do
      let (right_side, ps) ← parse_integer_expr fuel ps
      Except.ok (.rel left_side right_side .operator_greater_equal, ps)
    else Except.ok (left_side, ps)

/-- `parse_numeric_expr`: NOT, or a relational expression optionally joined
by AND/OR with an integer expression. -/
def parse_numeric_expr : Nat → parse_state → Except pfail (numeric_expr × parse_state)
  | 0, _ => Except.error .fuelOut
  | fuel + 1, ps => do
    let (n, ps) ← accept_tv ps .type_word (some "not")
    if n.isSome then do
      let (left_side, ps) ← parse_numeric_expr fuel ps
      Except.ok (.boolean left_side none .operator_not, ps)
    else do
      let (left_side, ps) ← parse_relational_expr fuel ps
      let (a, ps) ← accept_tv ps .type_word (some "and")
      if a.isSome then do
        let (right_side, ps) ← parse_integer_expr fuel ps
        Except.ok (.boolean left_side (some right_side) .operator_and, ps)
      else do
        let (o, ps) ← accept_tv ps .type_word (some "or")
        if o.isSome then do
          let (right_side, ps) ← parse_integer_expr fuel ps
          Except.ok (.boolean left_side (some right_side) .operator_or, ps)
        else Except.ok (left_side, ps)

/-- `parse_string_atom`: literal, string identifier, or parenthesized
string expression. -/
def parse_string_atom : Nat → parse_state → Except pfail (string_expr × parse_state)
  | 0, _ => Except.error .fuelOut
  | fuel + 1, ps => do
    let (sL, ps) ← accept_tv ps .type_string none
    match sL with
    | some lx => Except.ok (.literal lx.value, ps)
    | none => do
      let (wL, ps) ← accept_tv ps .type_word none
      match wL with
      | some lx =>
        if is_string_identifier lx.value then Except.ok (.svar lx.value, ps)
        else Except.error (.fail (mk_error "Expected a string identifier" (some lx)))
      | none => do
        let (pL, ps) ← accept_tv ps .type_symbol (some "(")
        if pL.isSome then do
          let (sub, ps) ← parse_string_expr fuel ps
          let (_, ps) ← expect_tv ps .type_symbol (some ")")
          Except.ok (sub, ps)
        else
          Except.error (.fail (mk_error
            "Expected a string literal, string identifier or opening parenthesis" ps.next_symbol))

/-- `parse_string_expr`: right-recursive '&' concatenation. -/
def parse_string_expr : Nat → parse_state → Except pfail (string_expr × parse_state)
  | 0, _ => Except.error .fuelOut
  | fuel + 1, ps => do
    let (left_side, ps) ← parse_string_atom fuel ps
    let (amp, ps) ← accept_tv ps .type_symbol (some "&")
    if amp.isSome then do
      let (right_side, ps) ← parse_string_expr fuel ps
      Except.ok (.concat left_side right_side, ps)
    else Except.ok (left_side, ps)

/-- `parse_expression`: a string lexeme or string identifier in the
look-ahead selects a string expression, else numeric. -/
def parse_expression : Nat → parse_state → Except pfail (printable_expr × parse_state)
  | 0, _ => Except.error .fuelOut
  | fuel + 1, ps =>
    let isStr : Bool := match ps.next_symbol with
      | some nx => nx.type == lexeme_type.type_string ||
                   (nx.type == lexeme_type.type_word && is_string_identifier nx.value)
      | none => false
    if isStr then do
      let (e, ps) ← parse_string_expr fuel ps
      Except.ok (printable_expr.str e, ps)
    else do
      let (e, ps) ← parse_numeric_expr fuel ps
      Except.ok (printable_expr.num e, ps)

/-- The `parsers_map` dispatch: the statement parser for a keyword, or
nothing when the word is no statement keyword. -/
def parse_keyword : Nat → String → parse_state → Except pfail (Option (stmt × parse_state))
  | 0, _, _ => Except.error .fuelOut
  | fuel + 1, kw, ps =>
    if kw = "if" then do let r ← parse_if fuel ps; Except.ok (some r)
    else if kw = "do" then do let r ← parse_do fuel ps; Except.ok (some r)
    else if kw = "for" then do let r ← parse_for fuel ps; Except.ok (some r)
    else if kw = "print" then do let r ← parse_print fuel ps; Except.ok (some r)
    else if kw = "input" then do let r ← parse_input fuel ps; Except.ok (some r)
    else if kw = "let" then do let r ← parse_let fuel ps; Except.ok (some r)
    else if kw = "goto" then do let r ← parse_goto fuel ps; Except.ok (some r)
    else if kw = "stop" then Except.ok (some (stmt.stop, ps))
    else if kw = "exit" then do
      let (w, ps) ← expect_tv ps .type_word none
      Except.ok (some (stmt.exit w.value, ps))
    else Except.ok none

/-- `parse_if`: the single-line label form or the multi-line block form. -/
def parse_if : Nat → parse_state → Except pfail (stmt × parse_state)
  | 0, _ => Except.error .fuelOut
  | fuel + 1, ps => do
    let (condition, ps) ← parse_numeric_expr fuel ps
    let (_, ps) ← expect_tv ps .type_word (some "then")
    let (l1, ps) ← accept_tv ps .type_number none
    let (lbl, ps) ← (match l1 with
      | some lx => Except.ok ((some lx : Option lexeme), ps)
      | none => accept_tv ps .type_word none)
    match lbl with
    | some lx => do
      let then_label := lx.value
      let (e, ps) ← accept_tv ps .type_word (some "else")
      if e.isSome then do
        let (n2, ps) ← accept_tv ps .type_number none
        match n2 with
        | some lx2 => Except.ok (.if_goto condition then_label lx2.value, ps)
        | none => do
          let (lx2, ps) ← expect_tv ps .type_word none
          Except.ok (.if_goto condition then_label lx2.value, ps)
      else Except.ok (.if_goto condition then_label "", ps)
    | none =>
      let isEnd : Bool := match ps.next_symbol with
        | some nx => nx.type == lexeme_type.type_end
        | none => false
      if isEnd then do
        let (_, ps) ← accept_any ps
        parse_if_clauses fuel [condition] [] ps
      else Except.error (.fail (mk_error "Expected a label or newline after THEN" none))

/-- The ELSEIF/ELSE/END IF loop of `parse_if`'s block form. -/
def parse_if_clauses : Nat → List numeric_expr → List block → parse_state →
    Except pfail (stmt × parse_state)
  | 0, _, _, _ => Except.error .fuelOut
  | fuel + 1, conditions, blocks, ps => do
    let ((clause, keyword), ps) ← parse_block fuel ps
    let blocks := blocks ++ [clause]
    if keyword = "elseif" then do
      let (condition, ps) ← parse_numeric_expr fuel ps
      let (_, ps) ← expect_tv ps .type_word (some "then")
      let (_, ps) ← expect_tv ps .type_end none
      parse_if_clauses fuel (conditions ++ [condition]) blocks ps
    else if keyword ≠ "end" ∧ keyword ≠ "else" then
      Except.error (.fail (mk_error ("Unexpected " ++
        (if keyword ≠ "" then "keyword " ++ keyword else "end of input") ++
        ", expected ELSE, ELSEIF or END IF") none))
    else if keyword = "end" then do
      let (_, ps) ← expect_tv ps .type_word (some "if")
      Except.ok (stmt.if_block conditions blocks, ps)
    else
      parse_if_clauses fuel conditions blocks ps

/-- `parse_do`: DO WHILE expr, body block, LOOP terminator. -/
def parse_do : Nat → parse_state → Except pfail (stmt × parse_state)
  | 0, _ => Except.error .fuelOut
  | fuel + 1, ps => do
    let (_, ps) ← expect_tv ps .type_word (some "while")
    let (condition, ps) ← parse_numeric_expr fuel ps
    let ((body, terminator), ps) ← parse_block fuel ps
    if terminator ≠ "loop" then
      Except.error (.fail (mk_error ("Expected LOOP, got " ++ terminator) none))
    else Except.ok (stmt.do_while condition body, ps)

/-- `parse_for`: FOR id = expr TO expr [STEP expr], body, NEXT id with the
same variable name. -/
def parse_for : Nat → parse_state → Except pfail (stmt × parse_state)
  | 0, _ => Except.error .fuelOut
  | fuel + 1, ps => do
    let (v, ps) ← expect_tv ps .type_word none
    let variable_name := v.value
    let (_, ps) ← expect_tv ps .type_symbol (some "=")
    let (initial, ps) ← parse_numeric_expr fuel ps
    let (_, ps) ← expect_tv ps .type_word (some "to")
    let (finalE, ps) ← parse_numeric_expr fuel ps
    let (st, ps) ← accept_tv ps .type_word (some "step")
    let (stepE, ps) ← (if st.isSome then parse_numeric_expr fuel ps
                       else Except.ok (numeric_expr.constant (number.ofInt 1), ps))
    let ((body, terminator), ps) ← parse_block fuel ps
    if terminator = "next" then do
      let (_, ps) ← expect_tv ps .type_word (some variable_name)
      Except.ok (stmt.forS variable_name initial finalE stepE body, ps)
    else
      Except.error (.fail (mk_error
        ("Expected NEXT " ++ variable_name ++ ", got " ++ terminator) none))

/-- `parse_print`: an optional comma-separated expression list. -/
def parse_print : Nat → parse_state → Except pfail (stmt × parse_state)
  | 0, _ => Except.error .fuelOut
  | fuel + 1, ps =>
    let hasArg : Bool := match ps.next_symbol with
      | some nx => nx.type != lexeme_type.type_end
      | none => false
    if hasArg then parse_print_loop fuel [] ps
    else Except.ok (stmt.print [], ps)

def parse_print_loop : Nat → List printable_expr → parse_state →
    Except pfail (stmt × parse_state)
  | 0, _, _ => Except.error .fuelOut
  | fuel + 1, acc, ps => do
    let (e, ps) ← parse_expression fuel ps
    let acc := acc ++ [e]
    let (c, ps) ← accept_tv ps .type_symbol (some ",")
    if c.isSome then parse_print_loop fuel acc ps
    else Except.ok (stmt.print acc, ps)

/-- `parse_input`: INPUT id. -/
def parse_input : Nat → parse_state → Except pfail (stmt × parse_state)
  | 0, _ => Except.error .fuelOut
  | _ + 1, ps => do
    let (v, ps) ← expect_tv ps .type_word none
    Except.ok (stmt.input v.value, ps)

/-- `parse_let`: LET id = expr, the expression kind chosen by the
identifier kind. -/
def parse_let : Nat → parse_state → Except pfail (stmt × parse_state)
  | 0, _ => Except.error .fuelOut
  | fuel + 1, ps => do
    let (v, ps) ← expect_tv ps .type_word none
    let var_name := v.value
    let (_, ps) ← expect_tv ps .type_symbol (some "=")
    if !(is_string_identifier var_name) then do
      let (value, ps) ← parse_numeric_expr fuel ps
      Except.ok (stmt.let_numeric var_name value, ps)
    else do
      let (value, ps) ← parse_string_expr fuel ps
      Except.ok (stmt.let_string var_name value, ps)

/-- `parse_goto`: GOTO label (word or number). -/
def parse_goto : Nat → parse_state → Except pfail (stmt × parse_state)
  | 0, _ => Except.error .fuelOut
  | _ + 1, ps => do
    let (w, ps) ← accept_tv ps .type_word none
    match w with
    | some lx => Except.ok (stmt.goto lx.value, ps)
    | none => do
      let (n, ps) ← accept_tv ps .type_number none
      match n with
      | some lx => Except.ok (stmt.goto lx.value, ps)
      | none => Except.error (.fail (mk_error "Expected a label" none))

/-- `parse_line` (parser.cc lines 283-336), with the persisting `label`
of the `goto do_parse` comment-restart loop made explicit. -/
def parse_line_go : Nat → String → parse_state → Except pfail (line_result × parse_state)
  | 0, _, _ => Except.error .fuelOut
  | fuel + 1, label0, ps => do
    let (numLbl, ps) ← accept_tv ps .type_number none
    let label1 := match numLbl with
      | some lx => lx.value
      | none => label0
    let (w, ps) ← accept_tv ps .type_word none
    match w with
    | some symbol0 =>
      if symbol0.value ≠ "rem" then do
        let colon : Bool := match ps.next_symbol with
          | some nx => nx.type == lexeme_type.type_symbol && nx.value == ":"
          | none => false
        let (symbol, label2, ps) ←
          (if colon then do
            let (_, ps) ← accept_any ps
            let ps ← skip_end_lexemes fuel ps
            let (sym, ps) ← expect_tv ps .type_word none
            Except.ok (sym, symbol0.value, ps)
          else Except.ok (symbol0, label1, ps))
        if symbol.value ≠ "rem" then do
          let r ← parse_keyword fuel symbol.value ps
          match r with
          | some (st, ps) => do
            let (_, ps) ← expect_tv ps .type_end none
            Except.ok (line_result.stmtLine label2 st, ps)
          | none =>
            if BLOCK_TERMINATORS.contains symbol.value then
              Except.ok (line_result.termLine symbol.value, ps)
            else
              Except.error (.fail (mk_error ("Unrecognised keyword: " ++ symbol.value)
                (some symbol)))
        else do
          let ls := ignore_line ps.ls
          let (nx, ls') ← liftL (get_lexeme ls)
          parse_line_go fuel label2 ⟨nx, ls'⟩
      else do
        let ls := ignore_line ps.ls
        let (nx, ls') ← liftL (get_lexeme ls)
        parse_line_go fuel label1 ⟨nx, ls'⟩
    | none => do
      let (_, ps) ← expect_tv ps .type_end none
      Except.ok (line_result.stmtLine label1 stmt.empty, ps)

/-- `parse_block` (parser.cc lines 340-357): parse lines until a terminator
or end of input, appending statements and label entries via
`block.addLine`. -/
def parse_block : Nat → parse_state → Except pfail ((block × String) × parse_state)
  | 0, _ => Except.error .fuelOut
  | fuel + 1, ps => parse_block_loop fuel (block.mk [] []) ps

def parse_block_loop : Nat → block → parse_state → Except pfail ((block × String) × parse_state)
  | 0, _, _ => Except.error .fuelOut
  | fuel + 1, b, ps =>
    match ps.next_symbol with
    | none => Except.ok ((b, ""), ps)
    | some _ => do
      let (lr, ps) ← parse_line_go fuel "" ps
      match lr with
      | .termLine kw => Except.ok ((b, kw), ps)
      | .stmtLine label st => parse_block_loop fuel (b.addLine label st) ps

end

/-- The top-level `parse` (parser.cc lines 526-537): prime the look-ahead,
parse the root block, and accept only an absent terminator (end of input) or
an `end` terminator with an exhausted look-ahead. -/
def parse (fuel : Nat) (src : String) : Except pfail block := do
  let (nx, ls1) ← liftL (get_lexeme ⟨src.data, 1, 0⟩)
  let ((b, terminator), psF) ← parse_block fuel ⟨nx, ls1⟩
  if terminator ≠ "" ∧ (terminator ≠ "end" ∨ psF.next_symbol.isSome) then
    Except.error (.fail (mk_error ("Unexpected " ++ terminator ++ ", expected END or end-of-file")
      psF.next_symbol))
  else Except.ok b

/-- Parse and run: the observable output of a program on a list of input
lines, with explicit parser and runner fuel. -/
def programOutput (src : String) (inputLines : List String) (pfuel rfuel : Nat) :
    Option (Except err String) :=
  match parse pfuel src with
  | .error .fuelOut => none
  | .error (.fail e) => some (.error e)
  | .ok b =>
    match (interp.make b inputLines).run rfuel with
    | none => none
    | some (.error e) => some (.error e)
    | some (.ok s) => some (.ok s.output)

/-- Whether an `Except` computation succeeded. -/
def isOkE {ε α : Type} : Except ε α → Bool
  | .ok _ => true
  | .error _ => false

/-! ### Claim C1: division -/

/-- C1: evaluating `a / b` raises a runtime error exactly when the integer
part of `b` is zero (in particular, dividing by the floating value 0.5,
whose integer part is 0, raises "Division by zero"); on success the result
is integral iff both operands are integral and `a`'s integer value leaves
remainder zero when divided by `b`'s. -/
theorem C1_division (a b : number) :
    ((∃ c, number.div a b = Except.ok c) ↔ b.integral_value ≠ 0) ∧
    (b.integral_value = 0 → number.div a b = Except.error (err.rtError "Division by zero")) ∧
    (∀ c, number.div a b = Except.ok c →
      (c.integral = true ↔
        (a.integral = true ∧ b.integral = true ∧
         a.integral_value.tmod b.integral_value = 0))) ∧
    number.div (number.ofInt 1) (number.ofDouble ⟨1, 2⟩) =
      Except.error (err.rtError "Division by zero") := by
  refine ⟨⟨?_, ?_⟩, ?_, ?_, rfl⟩
  · rintro ⟨c, hc⟩
    intro h0
    simp [number.div, h0] at hc
  · intro h0
    exact ⟨⟨a.integral_value.tdiv b.integral_value,
            a.floating_point_value.div b.floating_point_value,
            a.integral && b.integral && (a.integral_value.tmod b.integral_value == 0)⟩,
           by simp [number.div, h0]⟩
  · intro h0
    simp [number.div, h0]
  · intro c hc
    by_cases h0 : b.integral_value = 0
    · simp [number.div, h0] at hc
    · simp [number.div, h0] at hc
      subst hc
      simp [Bool.and_eq_true, and_assoc]

/-- Witness for C1 at `7 / 2`: the division succeeds (divisor's integer part
is 2 ≠ 0) and the result is non-integral because 7 mod 2 ≠ 0. -/
theorem C1_division_witness :
    number.div (number.ofInt 7) (number.ofInt 2) = Except.ok ⟨3, ⟨7, 2⟩, false⟩ ∧
    ((false = true) ↔
      ((number.ofInt 7).integral = true ∧ (number.ofInt 2).integral = true ∧
       (number.ofInt 7).integral_value.tmod (number.ofInt 2).integral_value = 0)) := by
  have h := (C1_division (number.ofInt 7) (number.ofInt 2)).2.2.1 ⟨3, ⟨7, 2⟩, false⟩ rfl
  exact ⟨rfl, h⟩

/-! ### Claim C2: STOP and the main loop -/

/-- C2 (the failing side): `interpreter::stop` does clear the frame stack
and set the stop flag, but the main loop does **not** return without
touching the stack: re-evaluating the inner loop condition reads
`blocks.front()` on the now-empty deque (undefined behavior) before it
tests `should_stop`.  Running the one-statement program `STOP` reaches that
read. -/
theorem C2_stop_front_read :
    interp.stop (interp.make (block.mk [stmt.stop] []) []) =
      { blocks := [], should_stop := true, output := "", inputLines := [] } ∧
    programOutput "STOP\n" [] 16 4 =
      some (Except.error (err.ubError "std::deque::front on empty frame stack")) := by
  exact ⟨rfl, rfl⟩

/-! ### Claim C9: the modulo guard -/

/-- C9 contradicted at `5 mod 0`: the remainder is **not** computed there —
the operation yields no result at all (it is the C++ `%` by zero, undefined
behavior; in practice a crash), although indeed no runtime error of the
interpreter's modulo guard is raised. -/
theorem C9_counterexample :
    isOkE (number.mod (number.ofInt 5) (number.ofInt 0)) = false ∧
    number.mod (number.ofInt 5) (number.ofInt 0) ≠
      Except.error (err.rtError "Modulo operation is only defined on whole number types.") := by
  refine ⟨rfl, ?_⟩
  intro h
  simp [number.mod, number.ofInt] at h

/-- C9 (amended): the modulo guard raises its runtime error iff at least one
operand is non-integral and never inspects the divisor's value, so for two
integral operands the remainder-by-zero branch is reachable; there, however,
`a mod 0` does not compute a remainder — it performs integer `%` by zero,
which is undefined behavior, while no runtime error is raised.  With a
nonzero divisor the truncated remainder is computed. -/
theorem C9_modulo (a b : number) :
    (number.mod a b =
        Except.error (err.rtError "Modulo operation is only defined on whole number types.")
      ↔ ¬ (a.integral = true ∧ b.integral = true)) ∧
    (a.integral = true → b.integral = true → b.integral_value = 0 →
      number.mod a b = Except.error (err.ubError "integer remainder by zero")) ∧
    (a.integral = true → b.integral = true → b.integral_value ≠ 0 →
      number.mod a b =
        Except.ok ⟨a.integral_value.tmod b.integral_value,
                   Frac.ofInt (a.integral_value.tmod b.integral_value), true⟩) := by
  refine ⟨⟨?_, ?_⟩, ?_, ?_⟩
  · intro h
    intro ⟨ha, hb⟩
    by_cases h0 : b.integral_value = 0 <;> simp [number.mod, ha, hb, h0] at h
  · intro h
    have : (a.integral && b.integral) = false := by
      cases ha : a.integral
      · simp
      · cases hb : b.integral
        · simp
        · exact absurd ⟨ha, hb⟩ h
    simp [number.mod, this]
  · intro ha hb h0
    simp [number.mod, ha, hb, h0]
  · intro ha hb h0
    simp [number.mod, ha, hb, h0]

/-- Witness for C9 at `7 mod 3` (both integral, nonzero divisor): the
truncated remainder 1 is returned. -/
theorem C9_modulo_witness :
    number.mod (number.ofInt 7) (number.ofInt 3) = Except.ok ⟨1, Frac.ofInt 1, true⟩ := by
  have h := (C9_modulo (number.ofInt 7) (number.ofInt 3)).2.2 rfl rfl (by decide)
  simpa using h



/-! ### Claim C6: integer and floating PRINT output

The three-line arithmetic program of the specification's scenario 2,
parsed line by line (the intermediate parser states are spelled out so that
each step is a small closed computation) and then run. -/

def c6_text : String := "PRINT 1+2\nPRINT 1/2\nPRINT 4/2\n"

def c6_s1 : stmt := stmt.print [printable_expr.num
  (numeric_expr.arith (.constant (number.ofInt 1)) (.constant (number.ofInt 2)) .operator_plus)]

def c6_s2 : stmt := stmt.print [printable_expr.num
  (numeric_expr.arith (.constant (number.ofInt 1)) (.constant (number.ofInt 2)) .operator_divides)]

def c6_s3 : stmt := stmt.print [printable_expr.num
  (numeric_expr.arith (.constant (number.ofInt 4)) (.constant (number.ofInt 2)) .operator_divides)]

def c6_block : block := block.mk [c6_s1, c6_s2, c6_s3] []

theorem c6_prime : get_lexeme ⟨"PRINT 1+2\nPRINT 1/2\nPRINT 4/2\n".data, 1, 0⟩ =
    Except.ok (some ⟨lexeme_type.type_word, "print", 1, 5⟩,
      ⟨" 1+2\nPRINT 1/2\nPRINT 4/2\n".data, 1, 5⟩) := rfl

theorem c6_line1 : parse_line_go 14 ""
    ⟨some ⟨lexeme_type.type_word, "print", 1, 5⟩, ⟨" 1+2\nPRINT 1/2\nPRINT 4/2\n".data, 1, 5⟩⟩ =
    Except.ok (line_result.stmtLine "" c6_s1,
      ⟨some ⟨lexeme_type.type_word, "print", 2, 5⟩, ⟨" 1/2\nPRINT 4/2\n".data, 2, 5⟩⟩) := rfl

theorem c6_line2 : parse_line_go 13 ""
    ⟨some ⟨lexeme_type.type_word, "print", 2, 5⟩, ⟨" 1/2\nPRINT 4/2\n".data, 2, 5⟩⟩ =
    Except.ok (line_result.stmtLine "" c6_s2,
      ⟨some ⟨lexeme_type.type_word, "print", 3, 5⟩, ⟨" 4/2\n".data, 3, 5⟩⟩) := rfl

theorem c6_line3 : parse_line_go 12 ""
    ⟨some ⟨lexeme_type.type_word, "print", 3, 5⟩, ⟨" 4/2\n".data, 3, 5⟩⟩ =
    Except.ok (line_result.stmtLine "" c6_s3, ⟨none, ⟨"".data, 4, 0⟩⟩) := rfl

set_option maxHeartbeats 800000 in
theorem c6_parse : parse 16 c6_text = Except.ok c6_block := by
  show parse 16 "PRINT 1+2\nPRINT 1/2\nPRINT 4/2\n" = Except.ok c6_block
  have hp := c6_prime
  have h1 := c6_line1
  have h2 := c6_line2
  have h3 := c6_line3
  simp only [] at hp h1 h2 h3
  simp only [parse, liftL, bind, Except.bind, hp, parse_block, parse_block_loop,
    h1, h2, h3, block.addLine, block.statements, block.jump_table, List.length,
    List.append_nil, List.nil_append, List.cons_append, insertJT, lookupVar, List.lookup,
    ne_eq, Option.isSome]
  simp [c6_block]

set_option maxHeartbeats 1600000 in
theorem c6_run : interp.run 6 (interp.make c6_block []) =
    some (Except.ok ⟨[], false, "3\n0.500000\n2\n", []⟩) := rfl

/-- C6 contradicted: the program does not print `0.5` on its second line —
`operator<<` prints doubles with `std::showpoint` under the default stream
precision 6, so `1/2` renders as `0.500000`. -/
theorem C6_counterexample :
    programOutput "PRINT 1+2\nPRINT 1/2\nPRINT 4/2\n" [] 16 6 ≠
      some (Except.ok "3\n0.5\n2\n") := by
  intro h
  have hp : parse 16 "PRINT 1+2\nPRINT 1/2\nPRINT 4/2\n" = Except.ok c6_block := c6_parse
  unfold programOutput at h
  rw [hp] at h
  dsimp only [] at h
  rw [c6_run] at h
  dsimp only [] at h
  simp at h

/-- C6 (amended): the three-line program prints `3`, `0.500000` and `2`:
1+2 and 4/2 stay integral and print without a decimal point, 1/2 is
floating (since 1 mod 2 ≠ 0) and prints as the showpoint-formatted
`0.500000`. -/
theorem C6_arithmetic_output :
    programOutput "PRINT 1+2\nPRINT 1/2\nPRINT 4/2\n" [] 16 6 =
      some (Except.ok "3\n0.500000\n2\n") := by
  have hp : parse 16 "PRINT 1+2\nPRINT 1/2\nPRINT 4/2\n" = Except.ok c6_block := c6_parse
  unfold programOutput
  rw [hp]
  dsimp only []
  rw [c6_run]
/-! ### Claim C7 -/

/-- C7 contradicted: a program whose last line is `end` followed only by a
trailing newline does **not** parse successfully — the newline becomes an
end-of-statement lexeme left in the look-ahead, and the top-level parse
rejects an `end` terminator with a non-empty look-ahead. -/
theorem C7_counterexample :
    parse 8 "end\n" = Except.error (pfail.fail
      (err.synError "line 2, column 0: Unexpected end, expected END or end-of-file")) := rfl

/-- C7 (amended): parsing a whole program returns normally exactly when the
root block's terminating keyword is absent (end of input) or is `end` with
the look-ahead exhausted; `end` followed only by spaces or tabs qualifies,
but a trailing newline yields an end-of-statement lexeme in the look-ahead
and is a syntax error.  Any other top-level terminator is a syntax error. -/
theorem C7_top_terminator
    (src : String) (fuel : Nat) (b : block) (term : String) (psF : parse_state)
    (nx : Option lexeme) (ls1 : lexer_state)
    (hlex : get_lexeme ⟨src.data, 1, 0⟩ = Except.ok (nx, ls1))
    (hblock : parse_block fuel ⟨nx, ls1⟩ = Except.ok ((b, term), psF)) :
    (parse fuel src = Except.ok b ↔ (term = "" ∨ (term = "end" ∧ psF.next_symbol = none))) ∧
    parse 8 "end" = Except.ok (block.mk [] []) ∧
    parse 8 "end   " = Except.ok (block.mk [] []) ∧
    parse 8 "" = Except.ok (block.mk [] []) := by
  refine ⟨?_, rfl, rfl, rfl⟩
  unfold parse
  rw [hlex]
  dsimp only [liftL, bind, Except.bind]
  rw [hblock]
  dsimp only []
  by_cases hc : term ≠ "" ∧ (term ≠ "end" ∨ psF.next_symbol.isSome = true)
  · rw [if_pos hc]
    constructor
    · intro h
      exact absurd h (by simp)
    · rintro (h | ⟨h1, h2⟩)
      · exact absurd h hc.1
      · rcases hc.2 with h3 | h3
        · exact absurd h1 h3
        · rw [h2] at h3
          simp at h3
  · rw [if_neg hc]
    push_neg at hc
    constructor
    · intro _
      by_cases h0 : term = ""
      · exact Or.inl h0
      · refine Or.inr ⟨(hc h0).1, ?_⟩
        have h2 := (hc h0).2
        cases hn : psF.next_symbol with
        | none => rfl
        | some lx => rw [hn] at h2; simp at h2
    · intro _
      rfl

/-- Witness for C7: the theorem applied to the concrete program `end`. -/
theorem C7_witness : parse 8 "end" = Except.ok (block.mk [] []) :=
  (C7_top_terminator "end" 8 (block.mk [] []) "end" ⟨none, ⟨[], 1, 3⟩⟩
      (some ⟨lexeme_type.type_word, "end", 1, 3⟩) ⟨[], 1, 3⟩ rfl rfl).1.mpr
    (Or.inr ⟨rfl, rfl⟩)
/-! ### Claim C5: INPUT -/

/-- Specification-side reading of "the line is an integer": an optional sign
followed by one or more digits and nothing else. -/
def isIntegerLine (line : String) : Bool :=
  match line.data with
  | '-' :: rest => !rest.isEmpty && rest.all Char.isDigit
  | '+' :: rest => !rest.isEmpty && rest.all Char.isDigit
  | cs => !cs.isEmpty && cs.all Char.isDigit

/-- What `istream >> int` actually requires of the line: after optional
whitespace, an optional sign followed by at least one digit. -/
def hasIntStart (line : String) : Bool :=
  match line.data.dropWhile isCppSpace with
  | '-' :: c :: _ => c.isDigit
  | '+' :: c :: _ => c.isDigit
  | c :: _ => c.isDigit
  | [] => false

theorem digitsValue_isSome (cs : List Char) (acc : Nat) (run : List Char) (h : run ≠ []) :
    ∃ v, digitsValue cs acc run = some v := by
  induction cs generalizing acc run with
  | nil => exact ⟨acc, by simp [digitsValue, h]⟩
  | cons c cs ih =>
    by_cases hc : c.isDigit
    · obtain ⟨v, hv⟩ := ih (acc * 10 + (c.toNat - '0'.toNat)) (run ++ [c]) (by simp)
      simp at hv
      exact ⟨v, by simp [digitsValue, hc, hv]⟩
    · exact ⟨acc, by simp [digitsValue, hc, h]⟩

theorem cppReadInt_none_iff (line : String) :
    cppReadInt line = none ↔ hasIntStart line = false := by
  unfold cppReadInt hasIntStart
  cases hd : line.data.dropWhile isCppSpace with
  | nil => simp [digitsValue]
  | cons c rest =>
    by_cases hm : c = '-'
    · subst hm
      cases rest with
      | nil => simp [digitsValue]
      | cons d r2 =>
        by_cases hdig : d.isDigit
        · obtain ⟨v, hv⟩ := digitsValue_isSome r2 (0 * 10 + (d.toNat - '0'.toNat)) [d] (by simp)
          simp at hv
          simp [digitsValue, hdig, hv]
        · simp [digitsValue, hdig]
    · by_cases hp : c = '+'
      · subst hp
        cases rest with
        | nil => simp [digitsValue]
        | cons d r2 =>
          by_cases hdig : d.isDigit
          · obtain ⟨v, hv⟩ := digitsValue_isSome r2 (0 * 10 + (d.toNat - '0'.toNat)) [d] (by simp)
            simp at hv
            simp [digitsValue, hdig, hv]
          · simp [digitsValue, hdig]
      · by_cases hdig : c.isDigit
        · obtain ⟨v, hv⟩ := digitsValue_isSome rest (0 * 10 + (c.toNat - '0'.toNat)) [c] (by simp)
          simp at hv
          simp [hm, hp, digitsValue, hdig, hv]
        · simp [hm, hp, digitsValue, hdig]

/-- C5 contradicted at the input line "12abc": `istream >> int` reads the
maximal integer prefix and ignores the rest of the line, so INPUT assigns 12
and raises no error although the line is not an integer. -/
theorem C5_counterexample :
    ¬ (∀ (st : interp) (vn line : String) (rest : List String),
        st.inputLines = line :: rest →
        ((∃ e, execute (stmt.input vn) st = Except.error e) ↔ isIntegerLine line = false)) := by
  intro hclaim
  have h := (hclaim (interp.make (block.mk [] []) ["12abc"]) "x" "12abc" [] rfl).mpr rfl
  obtain ⟨e, he⟩ := h
  rw [show execute (stmt.input "x") (interp.make (block.mk [] []) ["12abc"]) =
        Except.ok (interp.set_var_numeric
          ⟨[⟨none, block.mk [] [], 0, [], []⟩], false, "? ", []⟩ "x" (number.ofInt 12))
      from rfl] at he
  simp at he

/-- C5 (amended): INPUT prints the prompt "? " without a newline, consumes
exactly one line, and raises its runtime error iff the line does not begin,
after optional whitespace, with an optional sign followed by at least one
digit; otherwise the integer read from that maximal prefix is assigned to
the numeric variable (trailing characters are ignored). -/
theorem C5_input (st : interp) (vn line : String) (rest : List String)
    (hin : st.inputLines = line :: rest) :
    ((∃ e, execute (stmt.input vn) st = Except.error e) ↔ cppReadInt line = none) ∧
    (cppReadInt line = none →
      execute (stmt.input vn) st =
        Except.error (err.rtError "User input error: expected an integer")) ∧
    (∀ v : Int, cppReadInt line = some v →
      execute (stmt.input vn) st =
        Except.ok (interp.set_var_numeric
          ⟨st.blocks, st.should_stop, st.output ++ "? ", rest⟩ vn (number.ofInt v))) ∧
    (cppReadInt line = none ↔ hasIntStart line = false) := by
  refine ⟨?_, ?_, ?_, cppReadInt_none_iff line⟩
  · constructor
    · rintro ⟨e, he⟩
      cases h : cppReadInt line with
      | none => rfl
      | some v =>
        rw [show execute (stmt.input vn) st =
              (match cppReadInt ((st.inputLines).headD "") with
               | some v => Except.ok ((interp.set_var_numeric
                   { st with output := st.output ++ "? ",
                             inputLines := st.inputLines.tail } vn (number.ofInt v)))
               | none => Except.error (err.rtError "User input error: expected an integer"))
            from rfl] at he
        rw [hin] at he
        simp only [List.headD_cons, h, List.tail_cons] at he
        cases he
    · intro h
      refine ⟨err.rtError "User input error: expected an integer", ?_⟩
      show (match cppReadInt ((st.inputLines).headD "") with
            | some v => Except.ok ((interp.set_var_numeric
                { st with output := st.output ++ "? ",
                          inputLines := st.inputLines.tail } vn (number.ofInt v)))
            | none => Except.error (err.rtError "User input error: expected an integer")) =
        Except.error (err.rtError "User input error: expected an integer")
      rw [hin]
      simp only [List.headD_cons, h]
  · intro h
    show (match cppReadInt ((st.inputLines).headD "") with
          | some v => Except.ok ((interp.set_var_numeric
              { st with output := st.output ++ "? ",
                        inputLines := st.inputLines.tail } vn (number.ofInt v)))
          | none => Except.error (err.rtError "User input error: expected an integer")) =
      Except.error (err.rtError "User input error: expected an integer")
    rw [hin]
    simp only [List.headD_cons, h]
  · intro v h
    show (match cppReadInt ((st.inputLines).headD "") with
          | some v => Except.ok ((interp.set_var_numeric
              { st with output := st.output ++ "? ",
                        inputLines := st.inputLines.tail } vn (number.ofInt v)))
          | none => Except.error (err.rtError "User input error: expected an integer")) =
      Except.ok (interp.set_var_numeric
        ⟨st.blocks, st.should_stop, st.output ++ "? ", rest⟩ vn (number.ofInt v))
    rw [hin]
    simp only [List.headD_cons, h, List.tail_cons]

/-- Witness for C5: the theorem applied to a state whose pending input is
the line "42" (success, assigns 42) and one whose line is "foo" (the
runtime error). -/
theorem C5_input_witness :
    ((interp.make (block.mk [] []) ["42"]).inputLines = "42" :: []) ∧
    execute (stmt.input "x") (interp.make (block.mk [] []) ["42"]) =
      Except.ok (interp.set_var_numeric
        ⟨[⟨none, block.mk [] [], 0, [], []⟩], false, "? ", []⟩ "x" (number.ofInt 42)) ∧
    execute (stmt.input "x") (interp.make (block.mk [] []) ["foo"]) =
      Except.error (err.rtError "User input error: expected an integer") := by
  refine ⟨rfl, ?_, ?_⟩
  · exact (C5_input (interp.make (block.mk [] []) ["42"]) "x" "42" [] rfl).2.2.1 42 rfl
  · exact (C5_input (interp.make (block.mk [] []) ["foo"]) "x" "foo" [] rfl).2.1 rfl
/-! ### Claim C3: FOR iteration count -/

/-- The number of body entries performed by `for_stmt::do_execute` followed
by the chain of `for_stmt::do_iterate` calls, under the claim's hypotheses
(the body does not assign the loop variable and performs no GOTO, EXIT or
STOP, so the variable seen by each iterate equals the value last stored and
iterate runs at each unwind of the body frame): the body is entered when
`for_condition step v final` holds; each iterate adds the stored step to the
variable and re-checks the same condition.  `final` and `step` are the
values frozen at loop entry — they are fixed parameters of the chain, never
re-evaluated. -/
def for_entry_count : Nat → number → number → number → Option Nat
  | 0, _, _, _ => none
  | fuel + 1, v, final_value, stepN =>
    if for_condition stepN v final_value then
      (for_entry_count fuel (number.add v stepN) final_value stepN).map (· + 1)
    else some 0

theorem number_add_ofInt (a b : Int) :
    number.add (number.ofInt a) (number.ofInt b) = number.ofInt (a + b) := by
  simp [number.add, number.ofInt, Frac.add, Frac.ofInt, number.promoted]

theorem for_condition_pos (s v f : Int) (hs : 0 < s) :
    for_condition (number.ofInt s) (number.ofInt v) (number.ofInt f) = decide (v ≤ f) := by
  simp [for_condition, number.gt, number.le, number.ge, number.lt, number.eq, number.ofInt]
  have h1 : decide (s < 0) = false := by simp; omega
  have h2 : (s == 0) = false := by simp; omega
  rw [h1, h2]
  by_cases hvf : v ≤ f
  · have : (decide (v < f) || v == f) = true := by
      rcases lt_or_eq_of_le hvf with h | h
      · simp [h]
      · simp [h]
    simp [this, hvf]
  · have hlt : decide (v < f) = false := by simp; omega
    have heq : (v == f) = false := by simp; omega
    simp [hlt, heq, hvf]

/-- C3: for a FOR loop with integral initial value `i`, final value `f` and
positive integral step `s`, whose body does not assign the loop variable and
performs no GOTO, EXIT or STOP, the body executes exactly
⌊(f − i)/s⌋ + 1 times when f ≥ i and zero times when f < i.  The count
function iterates exactly the condition and update of
`for_stmt::do_execute` / `do_iterate` on the step and final values frozen at
loop entry; the second conjunct identifies the natural-number quotient with
the claim's floor quotient (Int division by a positive divisor). -/
theorem C3_for_iteration_count (i f s : Int) (fuel : Nat)
    (hs : 0 < s) (hfuel : (f - i).toNat + 1 < fuel) :
    for_entry_count fuel (number.ofInt i) (number.ofInt f) (number.ofInt s) =
      some (if i ≤ f then (f - i).toNat / s.toNat + 1 else 0) ∧
    (i ≤ f → (((f - i).toNat / s.toNat : Nat) : Int) = (f - i) / s) := by
  constructor
  · induction fuel generalizing i with
    | zero => omega
    | succ fuel ih =>
      rw [for_entry_count, for_condition_pos _ _ _ hs]
      by_cases hif : i ≤ f
      · rw [if_pos (by simpa using hif), number_add_ofInt]
        by_cases hif2 : i + s ≤ f
        · rw [ih (i + s) (by omega)]
          rw [if_pos hif2, if_pos hif]
          have hd : ((f - i).toNat) / s.toNat = ((f - (i + s)).toNat) / s.toNat + 1 := by
            rw [Nat.div_eq]
            rw [if_pos (by constructor <;> omega)]
            have he : (f - i).toNat - s.toNat = (f - (i + s)).toNat := by omega
            rw [he]
          rw [hd]
          rfl
        · obtain ⟨fuel2, rfl⟩ : ∃ k, fuel = k + 1 := ⟨fuel - 1, by omega⟩
          rw [for_entry_count, for_condition_pos _ _ _ hs,
            if_neg (by simpa using hif2)]
          rw [if_pos hif]
          have hd : ((f - i).toNat) / s.toNat = 0 := Nat.div_eq_of_lt (by omega)
          rw [hd]
          rfl
      · rw [if_neg (by simpa using hif), if_neg hif]
  · intro hif
    conv_rhs => rw [show f - i = (((f - i).toNat : Nat) : Int) from by omega,
                    show s = ((s.toNat : Nat) : Int) from by omega]
    rw [← Int.natCast_div]

/-- Witness for C3: `FOR I = 1 TO 3` (step 1) enters its body exactly
⌊(3−1)/1⌋ + 1 = 3 times. -/
theorem C3_for_iteration_count_witness :
    (0 : Int) < 1 ∧ ((3 : Int) - 1).toNat + 1 < 10 ∧
    for_entry_count 10 (number.ofInt 1) (number.ofInt 3) (number.ofInt 1) = some 3 ∧
    ((((3 : Int) - 1).toNat / (1 : Int).toNat : Nat) : Int) = ((3 : Int) - 1) / 1 := by
  refine ⟨by decide, by decide, ?_, ?_⟩
  · have h := (C3_for_iteration_count 1 3 1 10 (by decide) (by decide)).1
    rw [h]
    decide
  · exact (C3_for_iteration_count 1 3 1 10 (by decide) (by decide)).2 (by decide)
/-! ### Claim C4: the variable store -/

theorem get_var_split (pre post : List execution_block) (f : execution_block)
    (n : String) (v0 : number)
    (hpre : ∀ g ∈ pre, lookupVar (numGet g) n = none)
    (hf : lookupVar (numGet f) n = some v0) :
    get_var numGet (pre ++ f :: post) n = Except.ok v0 := by
  induction pre with
  | nil => simp [get_var, hf]
  | cons g pre ih =>
    have hg := hpre g (by simp)
    simp only [List.cons_append, get_var, hg]
    exact ih (fun x hx => hpre x (by simp [hx]))

theorem update_in_frames_split (pre post : List execution_block) (f : execution_block)
    (n : String) (v : number)
    (hpre : ∀ g ∈ pre, lookupVar (numGet g) n = none)
    (hf : (lookupVar (numGet f) n).isSome) :
    update_in_frames numGet numSet (pre ++ f :: post) n v =
      pre ++ numSet f (updateVar (numGet f) n v) :: post := by
  induction pre with
  | nil => simp [update_in_frames, hf]
  | cons g pre ih =>
    have hg := hpre g (by simp)
    simp only [List.cons_append, update_in_frames, hg, Option.isSome_none, Bool.false_eq_true,
      if_false, List.cons.injEq, true_and]
    exact ih (fun x hx => hpre x (by simp [hx]))

theorem get_var_all_none (stack : List execution_block) (n : String)
    (h : ∀ g ∈ stack, lookupVar (numGet g) n = none) :
    get_var numGet stack n = Except.error (err.rtError ("Variable " ++ n ++ " undefined")) := by
  induction stack with
  | nil => rfl
  | cons g rest ih =>
    have hg := h g (by simp)
    simp only [get_var, hg]
    exact ih (fun x hx => h x (by simp [hx]))

theorem get_str_update_in_frames (frames : List execution_block) (n : String) (v : number)
    (m : String) :
    get_var strGet (update_in_frames numGet numSet frames n v) m = get_var strGet frames m := by
  induction frames with
  | nil => rfl
  | cons f fs ih =>
    by_cases h : (lookupVar (numGet f) n).isSome
    · simp [update_in_frames, h, get_var, numSet, strGet]
    · simp only [update_in_frames, h, if_false, Bool.false_eq_true]
      cases hl : lookupVar (strGet f) m with
      | some w => simp [get_var, hl]
      | none => simp [get_var, hl, ih]

theorem get_num_update_in_frames (frames : List execution_block) (n : String) (v : String)
    (m : String) :
    get_var numGet (update_in_frames strGet strSet frames n v) m = get_var numGet frames m := by
  induction frames with
  | nil => rfl
  | cons f fs ih =>
    by_cases h : (lookupVar (strGet f) n).isSome
    · simp [update_in_frames, h, get_var, strSet, numGet]
    · simp only [update_in_frames, h, if_false, Bool.false_eq_true]
      cases hl : lookupVar (numGet f) m with
      | some w => simp [get_var, hl]
      | none => simp [get_var, hl, ih]

theorem get_str_set_num (stack : List execution_block) (n : String) (v : number) (m : String) :
    get_var strGet (set_var numGet numSet stack n v) m = get_var strGet stack m := by
  cases stack with
  | nil => rfl
  | cons hd tl =>
    by_cases h : (hd :: tl).any (fun fr => (lookupVar (numGet fr) n).isSome)
    · simp only [set_var, h, if_true]
      exact get_str_update_in_frames (hd :: tl) n v m
    · simp only [set_var, h, if_false, Bool.false_eq_true]
      cases hl : lookupVar (strGet hd) m with
      | some w => simp [get_var, numSet, strGet, hl]
      | none => simp [get_var, numSet, strGet, hl]

theorem get_num_set_str (stack : List execution_block) (n : String) (v : String) (m : String) :
    get_var numGet (set_var strGet strSet stack n v) m = get_var numGet stack m := by
  cases stack with
  | nil => rfl
  | cons hd tl =>
    by_cases h : (hd :: tl).any (fun fr => (lookupVar (strGet fr) n).isSome)
    · simp only [set_var, h, if_true]
      exact get_num_update_in_frames (hd :: tl) n v m
    · simp only [set_var, h, if_false, Bool.false_eq_true]
      cases hl : lookupVar (numGet hd) m with
      | some w => simp [get_var, strSet, numGet, hl]
      | none => simp [get_var, strSet, numGet, hl]

/-- C4: assignment overwrites the binding in the innermost frame whose map
already contains the name (all frames nearer the top lacking it) and
otherwise inserts into the current top frame; reading returns the value from
the innermost frame containing the name and raises the runtime error
"Variable <name> undefined" when no frame does; and the numeric and string
namespaces are disjoint — a numeric assignment never changes any string
lookup and vice versa, so X and X$ never interfere. -/
theorem C4_variable_store
    (pre post stack tl : List execution_block) (f hd : execution_block)
    (n m : String) (v0 v : number) (sv : String) :
    ((∀ g ∈ pre, lookupVar (numGet g) n = none) → lookupVar (numGet f) n = some v0 →
      (get_var numGet (pre ++ f :: post) n = Except.ok v0 ∧
       set_var numGet numSet (pre ++ f :: post) n v =
         pre ++ numSet f (updateVar (numGet f) n v) :: post)) ∧
    ((∀ g ∈ hd :: tl, lookupVar (numGet g) n = none) →
      (get_var numGet (hd :: tl) n =
         Except.error (err.rtError ("Variable " ++ n ++ " undefined")) ∧
       set_var numGet numSet (hd :: tl) n v =
         numSet hd (numGet hd ++ [(n, v)]) :: tl)) ∧
    get_var strGet (set_var numGet numSet stack n v) m = get_var strGet stack m ∧
    get_var numGet (set_var strGet strSet stack n sv) m = get_var numGet stack m := by
  refine ⟨?_, ?_, get_str_set_num stack n v m, get_num_set_str stack n sv m⟩
  · intro hpre hf
    refine ⟨get_var_split pre post f n v0 hpre hf, ?_⟩
    have hfs : (lookupVar (numGet f) n).isSome := by simp [hf]
    cases pre with
    | nil =>
      have hany : (f :: post).any (fun fr => (lookupVar (numGet fr) n).isSome) = true := by
        simp only [List.any_cons, Bool.or_eq_true]
        exact Or.inl hfs
      simp only [List.nil_append, set_var, hany, if_true]
      exact update_in_frames_split [] post f n v hpre hfs
    | cons g pre2 =>
      have hany : ((g :: pre2) ++ f :: post).any
          (fun fr => (lookupVar (numGet fr) n).isSome) = true := by
        simp only [List.any_eq_true]
        exact ⟨f, by simp, hfs⟩
      simp only [List.cons_append] at hany ⊢
      simp only [set_var, hany, if_true]
      have := update_in_frames_split (g :: pre2) post f n v hpre hfs
      simpa using this
  · intro hall
    refine ⟨get_var_all_none (hd :: tl) n hall, ?_⟩
    have hany : ((hd :: tl).any (fun fr => (lookupVar (numGet fr) n).isSome)) = false := by
      simp only [List.any_eq_false]
      intro x hx
      simp [hall x hx]
    simp only [set_var, hany, Bool.false_eq_true, if_false]

/-- Witness for C4 on a two-frame stack: the inner frame holds y, the outer
frame holds x; reading x skips the inner frame, assignment to x updates the
outer frame in place, and reading x from the inner frame alone fails with
the exact message. -/
theorem C4_variable_store_witness :
    (∀ g ∈ [(⟨none, block.mk [] [], 0, [("y", number.ofInt 5)], []⟩ : execution_block)],
        lookupVar (numGet g) "x" = none) ∧
    lookupVar (numGet ⟨none, block.mk [] [], 0, [("x", number.ofInt 7)], []⟩) "x" =
      some (number.ofInt 7) ∧
    get_var numGet
      [⟨none, block.mk [] [], 0, [("y", number.ofInt 5)], []⟩,
       ⟨none, block.mk [] [], 0, [("x", number.ofInt 7)], []⟩] "x" =
      Except.ok (number.ofInt 7) ∧
    set_var numGet numSet
      [⟨none, block.mk [] [], 0, [("y", number.ofInt 5)], []⟩,
       ⟨none, block.mk [] [], 0, [("x", number.ofInt 7)], []⟩] "x" (number.ofInt 9) =
      [⟨none, block.mk [] [], 0, [("y", number.ofInt 5)], []⟩,
       ⟨none, block.mk [] [], 0, [("x", number.ofInt 9)], []⟩] ∧
    get_var numGet [(⟨none, block.mk [] [], 0, [("y", number.ofInt 5)], []⟩ : execution_block)]
        "x" = Except.error (err.rtError "Variable x undefined") := by
  have h := C4_variable_store
    [⟨none, block.mk [] [], 0, [("y", number.ofInt 5)], []⟩] []
    [] []
    ⟨none, block.mk [] [], 0, [("x", number.ofInt 7)], []⟩
    ⟨none, block.mk [] [], 0, [("y", number.ofInt 5)], []⟩
    "x" "y" (number.ofInt 7) (number.ofInt 9) "s"
  have hpre : ∀ g ∈ [(⟨none, block.mk [] [], 0, [("y", number.ofInt 5)], []⟩ : execution_block)],
      lookupVar (numGet g) "x" = none := by decide
  have hf : lookupVar (numGet ⟨none, block.mk [] [], 0, [("x", number.ofInt 7)], []⟩) "x" =
      some (number.ofInt 7) := by decide
  obtain ⟨hget, hset⟩ := h.1 hpre hf
  have h2 := h.2.1 hpre
  simp only [List.cons_append, List.nil_append] at hget hset
  refine ⟨hpre, hf, hget, ?_, h2.1⟩
  rw [hset]
  rfl
/-! ### Claim C10: duplicate labels -/

/-- Specification-side "position of the first (earliest) line carrying the
label". -/
def firstLabelIdx (L : String) : List (String × stmt) → Option Nat
  | [] => none
  | p :: rest => if p.1 = L then some 0 else (firstLabelIdx L rest).map (· + 1)

theorem lookup_append_jt (k : String) (l1 l2 : List (String × Nat)) :
    List.lookup k (l1 ++ l2) = (List.lookup k l1).or (List.lookup k l2) := by
  induction l1 with
  | nil => simp [List.lookup]
  | cons p rest ih =>
    by_cases h : k == p.1
    · simp [List.lookup, h]
    · simp [List.lookup, h, ih]

theorem insertJT_lookup_self (jt : List (String × Nat)) (L : String) (pos : Nat) :
    List.lookup L (insertJT jt L pos) = (List.lookup L jt).or (some pos) := by
  unfold insertJT
  cases h : List.lookup L jt with
  | some v => simp [h]
  | none => simp [h, lookup_append_jt, List.lookup]

theorem insertJT_lookup_other (jt : List (String × Nat)) (L lbl : String) (pos : Nat)
    (hne : L ≠ lbl) :
    List.lookup L (insertJT jt lbl pos) = List.lookup L jt := by
  unfold insertJT
  cases h : List.lookup lbl jt with
  | some v => simp
  | none =>
    have hb : (L == lbl) = false := by simp [hne]
    simp [lookup_append_jt, List.lookup, hb]

theorem addLine_foldl_statements (lines : List (String × stmt)) (b0 : block) :
    (lines.foldl (fun b p => block.addLine b p.1 p.2) b0).statements =
      b0.statements ++ lines.map Prod.snd := by
  induction lines generalizing b0 with
  | nil => simp
  | cons p rest ih =>
    simp only [List.foldl_cons]
    rw [ih]
    simp [block.addLine, block.statements]

theorem addLine_foldl_lookup (lines : List (String × stmt)) (b0 : block) (L : String)
    (hL : L ≠ "") :
    List.lookup L ((lines.foldl (fun b p => block.addLine b p.1 p.2) b0).jump_table) =
      (List.lookup L b0.jump_table).or
        ((firstLabelIdx L lines).map (· + b0.statements.length)) := by
  induction lines generalizing b0 with
  | nil => simp [firstLabelIdx]
  | cons p rest ih =>
    simp only [List.foldl_cons]
    rw [ih]
    have hjt : (block.addLine b0 p.1 p.2).jump_table =
        (if p.1 = "" then b0.jump_table
         else insertJT b0.jump_table p.1 b0.statements.length) := by
      simp [block.addLine, block.jump_table]
    have hst : (block.addLine b0 p.1 p.2).statements.length = b0.statements.length + 1 := by
      simp [block.addLine, block.statements]
    rw [hjt, hst]
    by_cases hpl : p.1 = L
    · subst hpl
      rw [if_neg hL, insertJT_lookup_self, Option.or_assoc]
      have hfi : firstLabelIdx p.1 (p :: rest) = some 0 := by simp [firstLabelIdx]
      rw [hfi]
      simp
    · have hfi : firstLabelIdx L (p :: rest) = (firstLabelIdx L rest).map (· + 1) := by
        simp [firstLabelIdx, hpl]
      rw [hfi]
      by_cases hpe : p.1 = ""
      · rw [if_pos hpe]
        congr 1
        cases h : firstLabelIdx L rest with
        | none => simp
        | some k =>
          simp
          omega
      · rw [if_neg hpe, insertJT_lookup_other _ _ _ _ (fun he => hpl he.symm)]
        congr 1
        cases h : firstLabelIdx L rest with
        | none => simp
        | some k =>
          simp
          omega

def c10_block : block := block.mk [stmt.stop, stmt.stop] [("10", 0)]

theorem c10_prime : get_lexeme ⟨"10 stop\n10 stop\n".data, 1, 0⟩ =
    Except.ok (some ⟨lexeme_type.type_number, "10", 1, 2⟩, ⟨" stop\n10 stop\n".data, 1, 2⟩) := rfl

theorem c10_line1 : parse_line_go 8 ""
    ⟨some ⟨lexeme_type.type_number, "10", 1, 2⟩, ⟨" stop\n10 stop\n".data, 1, 2⟩⟩ =
    Except.ok (line_result.stmtLine "10" stmt.stop,
      ⟨some ⟨lexeme_type.type_number, "10", 2, 2⟩, ⟨" stop\n".data, 2, 2⟩⟩) := rfl

theorem c10_line2 : parse_line_go 7 ""
    ⟨some ⟨lexeme_type.type_number, "10", 2, 2⟩, ⟨" stop\n".data, 2, 2⟩⟩ =
    Except.ok (line_result.stmtLine "10" stmt.stop, ⟨none, ⟨"".data, 3, 0⟩⟩) := rfl

set_option maxHeartbeats 800000 in
theorem c10_parse : parse 10 "10 stop\n10 stop\n" = Except.ok c10_block := by
  have hp := c10_prime
  have h1 := c10_line1
  have h2 := c10_line2
  simp only [] at hp h1 h2
  simp only [parse, liftL, bind, Except.bind, hp, parse_block, parse_block_loop,
    h1, h2, block.addLine, block.statements, block.jump_table, List.length,
    List.append_nil, List.nil_append, List.cons_append, insertJT, lookupVar, List.lookup,
    ne_eq, Option.isSome]
  simp [c10_block]

/-- C10: when two statements in the same block carry the same label, parsing
succeeds, both statements are kept, and the jump table maps the label to the
first (earliest) labeled statement — `std::map::insert` silently ignores the
later duplicate — so every jump to that label transfers control to the first
occurrence.  The first two conjuncts state this for the jump table built by
`parse_block`'s insertion loop over any line sequence; the rest exhibit it
end to end on the two-line program `10 stop / 10 stop` together with
`interpreter::jump`. -/
theorem C10_duplicate_labels (lines : List (String × stmt)) (L : String) (hL : L ≠ "") :
    (List.lookup L
        ((lines.foldl (fun b p => block.addLine b p.1 p.2) (block.mk [] [])).jump_table) =
      firstLabelIdx L lines) ∧
    ((lines.foldl (fun b p => block.addLine b p.1 p.2) (block.mk [] [])).statements =
      lines.map Prod.snd) ∧
    parse 10 "10 stop\n10 stop\n" = Except.ok c10_block ∧
    c10_block.jump_table = [("10", 0)] ∧
    jump_frames [⟨none, c10_block, 2, [], []⟩] "10" =
      Except.ok [⟨none, c10_block, 0, [], []⟩] := by
  refine ⟨?_, ?_, c10_parse, rfl, rfl⟩
  · have h := addLine_foldl_lookup lines (block.mk [] []) L hL
    simpa [block.jump_table, block.statements, List.lookup] using h
  · have h := addLine_foldl_statements lines (block.mk [] [])
    simpa [block.statements] using h

/-- Witness for C10 on the line list of the demo program: label "10" maps to
position 0, the first of the two statements. -/
theorem C10_duplicate_labels_witness :
    ("10" : String) ≠ "" ∧
    List.lookup "10"
        (([(("10" : String), stmt.stop), (("10" : String), stmt.stop)].foldl
          (fun b p => block.addLine b p.1 p.2) (block.mk [] [])).jump_table) = some 0 := by
  refine ⟨by decide, ?_⟩
  have h := (C10_duplicate_labels [("10", stmt.stop), ("10", stmt.stop)] "10" (by decide)).1
  rw [h]
  rfl

/-! ### Claim C8: right-recursive subtraction -/

/-- The raw characters of a numeric literal as the language writes them: a
nonempty integer digit run, optionally '.' and a nonempty fraction run. -/
def litChars (d1 : List Char) (d2 : Option (List Char)) : List Char :=
  d1 ++ (match d2 with | some f => '.' :: f | none => [])

def isDigitRun (cs : List Char) : Prop := cs ≠ [] ∧ ∀ c ∈ cs, c.isDigit = true

def litOk (d1 : List Char) (d2 : Option (List Char)) : Prop :=
  isDigitRun d1 ∧ ∀ f, d2 = some f → isDigitRun f

theorem takeWhile_append_all {p : Char → Bool} (xs ys : List Char)
    (h : ∀ x ∈ xs, p x = true) : (xs ++ ys).takeWhile p = xs ++ ys.takeWhile p := by
  induction xs with
  | nil => simp
  | cons x xs ih =>
    have hx : p x = true := h x (by simp)
    simp only [List.cons_append, List.takeWhile_cons, hx, if_true, List.cons.injEq, true_and]
    exact ih (fun y hy => h y (by simp [hy]))

theorem dropWhile_append_all {p : Char → Bool} (xs ys : List Char)
    (h : ∀ x ∈ xs, p x = true) : (xs ++ ys).dropWhile p = ys.dropWhile p := by
  induction xs with
  | nil => simp
  | cons x xs ih =>
    have hx : p x = true := h x (by simp)
    simp only [List.cons_append, List.dropWhile_cons, hx, if_true]
    exact ih (fun y hy => h y (by simp [hy]))

theorem digit_not_ws (c : Char) (h : c.isDigit = true) : isWsChar c = false := by
  unfold isWsChar
  by_cases h1 : c = ' '
  · subst h1; exact absurd h (by decide)
  · by_cases h2 : c = '\t'
    · subst h2; exact absurd h (by decide)
    · simp [h1, h2]

theorem get_lexeme_empty (line col : Nat) :
    get_lexeme ⟨[], line, col⟩ = Except.ok (none, ⟨[], line, col⟩) := rfl

theorem skip_whitespace_space (cs : List Char) (line col : Nat) :
    skip_whitespace ⟨' ' :: cs, line, col⟩ = skip_whitespace ⟨cs, line, col + 1⟩ := by
  simp only [skip_whitespace, List.takeWhile_cons, List.dropWhile_cons]
  norm_num [isWsChar]
  omega

theorem get_lexeme_space (cs : List Char) (line col : Nat) :
    get_lexeme ⟨' ' :: cs, line, col⟩ = get_lexeme ⟨cs, line, col + 1⟩ := by
  unfold get_lexeme
  rw [skip_whitespace_space]

theorem get_lexeme_minus (cs : List Char) (line col : Nat) :
    get_lexeme ⟨'-' :: cs, line, col⟩ =
      Except.ok (some ⟨lexeme_type.type_symbol, "-", line, col + 1⟩, ⟨cs, line, col + 1⟩) := by
  unfold get_lexeme
  have hsk : skip_whitespace ⟨'-' :: cs, line, col⟩ = ⟨'-' :: cs, line, col⟩ := by
    simp [skip_whitespace, List.takeWhile_cons, List.dropWhile_cons, isWsChar]
  rw [hsk]
  simp [mkLexeme, SIMPLE_SYMBOLS]

theorem lex_literal (d1 : List Char) (d2 : Option (List Char)) (rest : List Char)
    (line col : Nat) (hok : litOk d1 d2)
    (hrest : ∀ c r2, rest = c :: r2 → (c.isDigit = false ∧ c ≠ '.')) :
    get_lexeme ⟨litChars d1 d2 ++ rest, line, col⟩ =
      Except.ok (some (mkLexeme .type_number (String.mk (litChars d1 d2)) line
                        (col + (litChars d1 d2).length)),
                 ⟨rest, line, col + (litChars d1 d2).length⟩) := by
  obtain ⟨⟨hd1ne, hd1dig⟩, hfr⟩ := hok
  obtain ⟨c0, d1t, rfl⟩ : ∃ c0 d1t, d1 = c0 :: d1t := by
    cases d1 with
    | nil => exact absurd rfl hd1ne
    | cons a b => exact ⟨a, b, rfl⟩
  have hc0 : c0.isDigit = true := hd1dig c0 (by simp)
  have htrest : List.takeWhile Char.isDigit rest = [] := by
    cases rest with
    | nil => simp
    | cons r rs =>
      obtain ⟨hr1, _⟩ := hrest r rs rfl
      simp [List.takeWhile_cons, hr1]
  have hdrest : List.dropWhile Char.isDigit rest = rest := by
    cases rest with
    | nil => simp
    | cons r rs =>
      obtain ⟨hr1, _⟩ := hrest r rs rfl
      simp [List.dropWhile_cons, hr1]
  unfold get_lexeme
  have hsk : skip_whitespace ⟨litChars (c0 :: d1t) d2 ++ rest, line, col⟩ =
      ⟨litChars (c0 :: d1t) d2 ++ rest, line, col⟩ := by
    simp [skip_whitespace, litChars, List.takeWhile_cons, List.dropWhile_cons,
      digit_not_ws c0 hc0]
  rw [hsk]
  cases d2 with
  | none =>
    simp only [litChars, List.append_nil]
    have h1 : List.takeWhile Char.isDigit ((c0 :: d1t) ++ rest) =
        (c0 :: d1t) ++ List.takeWhile Char.isDigit rest :=
      takeWhile_append_all _ _ hd1dig
    have h2 : List.dropWhile Char.isDigit ((c0 :: d1t) ++ rest) = rest := by
      rw [dropWhile_append_all _ _ hd1dig, hdrest]
    simp only [List.cons_append] at h1 h2 ⊢
    simp only [if_pos hc0, h1, h2, htrest, List.append_nil]
    cases rest with
    | nil => simp
    | cons r rs =>
      obtain ⟨hr1, hr2⟩ := hrest r rs rfl
      split
      · rename_i r2 heq
        injection heq with he1 he2
        exact absurd he1 hr2
      · simp
  | some f =>
    obtain ⟨hfne, hfdig⟩ := hfr f rfl
    simp only [litChars]
    have hassoc : ((c0 :: d1t) ++ '.' :: f) ++ rest = (c0 :: d1t) ++ '.' :: (f ++ rest) := by
      simp
    rw [hassoc]
    have h1 : List.takeWhile Char.isDigit ((c0 :: d1t) ++ '.' :: (f ++ rest)) =
        (c0 :: d1t) := by
      rw [takeWhile_append_all _ _ hd1dig]
      simp [List.takeWhile_cons]
    have h2 : List.dropWhile Char.isDigit ((c0 :: d1t) ++ '.' :: (f ++ rest)) =
        '.' :: (f ++ rest) := by
      rw [dropWhile_append_all _ _ hd1dig]
      simp [List.dropWhile_cons]
    have h3 : List.takeWhile Char.isDigit (f ++ rest) = f := by
      rw [takeWhile_append_all _ _ hfdig, htrest, List.append_nil]
    have h4 : List.dropWhile Char.isDigit (f ++ rest) = rest := by
      rw [dropWhile_append_all _ _ hfdig, hdrest]
    simp only [List.cons_append] at h1 h2 ⊢
    simp only [if_pos hc0, h1, h2, h3, h4]
    simp [List.length_append, List.length_cons, Nat.add_assoc, Nat.add_comm, Nat.add_left_comm]

theorem mkLexeme_number (v : String) (l c : Nat) :
    mkLexeme lexeme_type.type_number v l c = ⟨lexeme_type.type_number, stripZeros v, l, c⟩ := rfl

theorem accept_tv_nothing (what : lexeme_type) (value : Option String) (ls : lexer_state) :
    accept_tv ⟨none, ls⟩ what value = Except.ok (none, ⟨none, ls⟩) := rfl

theorem accept_tv_type_mismatch (nx : lexeme) (ls : lexer_state) (what : lexeme_type)
    (value : Option String) (h : nx.type ≠ what) :
    accept_tv ⟨some nx, ls⟩ what value = Except.ok (none, ⟨some nx, ls⟩) := by
  simp [accept_tv, h]

theorem accept_tv_value_mismatch (nx : lexeme) (ls : lexer_state) (what : lexeme_type)
    (v : String) (h : v ≠ nx.value) :
    accept_tv ⟨some nx, ls⟩ what (some v) = Except.ok (none, ⟨some nx, ls⟩) := by
  simp [accept_tv, h]

theorem accept_tv_type_match (nx : lexeme) (ls : lexer_state) (what : lexeme_type)
    (h : nx.type = what) :
    accept_tv ⟨some nx, ls⟩ what none = accept_any ⟨some nx, ls⟩ := by
  simp [accept_tv, h]

theorem accept_tv_full_match (nx : lexeme) (ls : lexer_state) (what : lexeme_type)
    (v : String) (hT : nx.type = what) (hv : v = nx.value) :
    accept_tv ⟨some nx, ls⟩ what (some v) = accept_any ⟨some nx, ls⟩ := by
  simp [accept_tv, hT, hv]

/-- Prime the look-ahead from raw text, as the top-level `parse` does, then
parse one additive-level expression. -/
def parse_integer_expr_text (fuel : Nat) (cs : List Char) :
    Except pfail (numeric_expr × parse_state) := do
  let (nx, ls1) ← liftL (get_lexeme ⟨cs, 1, 0⟩)
  parse_integer_expr fuel ⟨nx, ls1⟩

/-- C8: for all numeric literals a, b, c (any digit runs, with or without a
fractional part), the text `a - b - c` parses with the additive level
right-recursive, producing `a - (b - c)`; evaluating that tree subtracts
right-associatively, and on 1, 2, 3 the two groupings give different
numbers (1-(2-3) = 2, (1-2)-3 = -4). -/
theorem C8_sub_right_assoc
    (a1 b1 c1 : List Char) (a2 b2 c2 : Option (List Char))
    (ha : litOk a1 a2) (hb : litOk b1 b2) (hc : litOk c1 c2)
    (na nb nc : number)
    (hna : factor_constant 1 (stripZeros (String.mk (litChars a1 a2))) =
      Except.ok (numeric_expr.constant na))
    (hnb : factor_constant 1 (stripZeros (String.mk (litChars b1 b2))) =
      Except.ok (numeric_expr.constant nb))
    (hnc : factor_constant 1 (stripZeros (String.mk (litChars c1 c2))) =
      Except.ok (numeric_expr.constant nc)) :
    (parse_integer_expr_text 12
        (litChars a1 a2 ++ (' ' :: '-' :: ' ' :: (litChars b1 b2 ++
          (' ' :: '-' :: ' ' :: litChars c1 c2))))).map Prod.fst =
      Except.ok (numeric_expr.arith (.constant na)
        (numeric_expr.arith (.constant nb) (.constant nc) .operator_minus)
        .operator_minus) ∧
    (∀ st : interp, eval_numeric (numeric_expr.arith (.constant na)
        (numeric_expr.arith (.constant nb) (.constant nc) .operator_minus)
        .operator_minus) st = Except.ok (number.sub na (number.sub nb nc))) ∧
    number.sub (number.ofInt 1) (number.sub (number.ofInt 2) (number.ofInt 3)) ≠
      number.sub (number.sub (number.ofInt 1) (number.ofInt 2)) (number.ofInt 3) := by
  refine ⟨?_, fun st => rfl, by decide⟩
  have gA := fun (l c : Nat) => lex_literal a1 a2
    (' ' :: '-' :: ' ' :: (litChars b1 b2 ++ (' ' :: '-' :: ' ' :: litChars c1 c2))) l c ha
    (by intro ch r2 h; cases h; exact ⟨by decide, by decide⟩)
  have gB := fun (l c : Nat) => lex_literal b1 b2
    (' ' :: '-' :: ' ' :: litChars c1 c2) l c hb
    (by intro ch r2 h; cases h; exact ⟨by decide, by decide⟩)
  have gC := fun (l c : Nat) => lex_literal c1 c2 [] l c hc
    (by intro ch r2 h; cases h)
  simp only [List.append_nil] at gC
  simp only [parse_integer_expr_text, liftL, bind, Except.bind, gA, gB, gC,
    get_lexeme_space, get_lexeme_minus, get_lexeme_empty,
    parse_integer_expr, parse_term, parse_factor, mkLexeme_number,
    accept_tv_nothing, accept_tv_type_mismatch, accept_tv_value_mismatch,
    accept_tv_type_match, accept_tv_full_match, accept_any,
    reduceIte, reduceCtorEq, ne_eq, String.reduceEq, Option.isSome_none,
    Option.isSome_some, Bool.false_eq_true,
    hna, hnb, hnc, Except.map, not_false_eq_true]

theorem C8_sub_right_assoc_witness :
    (litOk ['1'] none ∧ litOk ['2'] none ∧ litOk ['3'] none ∧
      factor_constant 1 (stripZeros (String.mk (litChars ['1'] none))) =
        Except.ok (numeric_expr.constant (number.ofInt 1)) ∧
      factor_constant 1 (stripZeros (String.mk (litChars ['2'] none))) =
        Except.ok (numeric_expr.constant (number.ofInt 2)) ∧
      factor_constant 1 (stripZeros (String.mk (litChars ['3'] none))) =
        Except.ok (numeric_expr.constant (number.ofInt 3))) ∧
    ((parse_integer_expr_text 12
        (litChars ['1'] none ++ (' ' :: '-' :: ' ' :: (litChars ['2'] none ++
          (' ' :: '-' :: ' ' :: litChars ['3'] none))))).map Prod.fst =
      Except.ok (numeric_expr.arith (.constant (number.ofInt 1))
        (numeric_expr.arith (.constant (number.ofInt 2)) (.constant (number.ofInt 3))
          .operator_minus) .operator_minus) ∧
    (∀ st : interp, eval_numeric (numeric_expr.arith (.constant (number.ofInt 1))
        (numeric_expr.arith (.constant (number.ofInt 2)) (.constant (number.ofInt 3))
          .operator_minus) .operator_minus) st =
      Except.ok (number.sub (number.ofInt 1)
        (number.sub (number.ofInt 2) (number.ofInt 3)))) ∧
    number.sub (number.ofInt 1) (number.sub (number.ofInt 2) (number.ofInt 3)) ≠
      number.sub (number.sub (number.ofInt 1) (number.ofInt 2)) (number.ofInt 3)) :=
  have h1 : litOk ['1'] none := ⟨⟨by decide, by decide⟩, fun f h => by cases h⟩
  have h2 : litOk ['2'] none := ⟨⟨by decide, by decide⟩, fun f h => by cases h⟩
  have h3 : litOk ['3'] none := ⟨⟨by decide, by decide⟩, fun f h => by cases h⟩
  ⟨⟨h1, h2, h3, rfl, rfl, rfl⟩,
    C8_sub_right_assoc ['1'] ['2'] ['3'] none none none h1 h2 h3
      (number.ofInt 1) (number.ofInt 2) (number.ofInt 3) rfl rfl rfl⟩
